import Mathlib

/-!
Verification of `src/tls/s2n_server_key_exchange.c` (s2n ServerKeyExchange
encode/decode for ephemeral DH authenticated by an RSA signature).

The two functions `s2n_server_key_recv` and `s2n_server_key_send` are embedded
shallowly: bytes are `Nat`s in lists, the handshake stuffer is a blob with a
read and a write cursor, and each collaborator call is either modelled from the
spec (stuffer primitives, DH transcoder, hash transcript) or taken as a
function parameter (RSA sign/verify, ephemeral key generation).  Every run
additionally produces the list of collaborator events it performed, in order,
so that claims about what gets hashed, freed or transcoded can be stated.
-/

namespace S2N

/-- Protocol version code for TLS 1.2 (`S2N_TLS12`). -/
def S2N_TLS12 : Nat := 33

/-- `S2N_TLS_RANDOM_DATA_LEN`: length of the client/server randoms. -/
def S2N_TLS_RANDOM_DATA_LEN : Nat := 32

/-- Handshake states; only `SERVER_HELLO_DONE` is assigned by this file's code. -/
inductive HandshakeState where
  | CLIENT_HELLO
  | SERVER_HELLO
  | SERVER_CERT
  | SERVER_KEY
  | SERVER_HELLO_DONE
  | CLIENT_KEY_EXCHANGE
  | HANDSHAKE_OVER
deriving DecidableEq, Repr

/-- Modelled from the spec: a byte cursor (`struct s2n_stuffer`) is a view over
a buffer with independent read and write offsets; every read is bounds-checked
against the bytes available between the two cursors. -/
structure Stuffer where
  blob : List Nat
  read_cursor : Nat
  write_cursor : Nat
deriving DecidableEq, Repr

/-- Bytes available for reading: `write_cursor - read_cursor`. -/
def s2n_stuffer_data_available (s : Stuffer) : Nat :=
  s.write_cursor - s.read_cursor

/-- Modelled from the spec: `s2n_stuffer_raw_read` returns a view of the next
`n` bytes and advances the read cursor, or fails (NULL) when fewer than `n`
bytes are available.  No default value is ever substituted. -/
def s2n_stuffer_raw_read (s : Stuffer) (n : Nat) : Option (List Nat × Stuffer) :=
  if n ≤ s2n_stuffer_data_available s then
    some ((s.blob.drop s.read_cursor).take n,
      { s with read_cursor := s.read_cursor + n })
  else
    none

/-- Modelled from the spec: read one byte. -/
def s2n_stuffer_read_uint8 (s : Stuffer) : Option (Nat × Stuffer) :=
  match s2n_stuffer_raw_read s 1 with
  | none => none
  | some (b, s') => some (b.headD 0, s')

/-- Modelled from the spec: read a 16-bit big-endian length. -/
def s2n_stuffer_read_uint16 (s : Stuffer) : Option (Nat × Stuffer) :=
  match s2n_stuffer_raw_read s 2 with
  | none => none
  | some (b, s') => some (256 * b.headD 0 + b.tail.headD 0, s')

/-- Modelled from the spec: append bytes at the write cursor (the handshake
stuffer is growable, so writes succeed). -/
def s2n_stuffer_write_bytes (s : Stuffer) (bs : List Nat) : Stuffer :=
  { s with
    blob := s.blob.take s.write_cursor ++ bs
    write_cursor := s.write_cursor + bs.length }

/-- Big-endian 16-bit encoding of a length. -/
def u16be (n : Nat) : List Nat := [n / 256 % 256, n % 256]

/-- Modelled from the spec: write a 16-bit big-endian value. -/
def s2n_stuffer_write_uint16 (s : Stuffer) (n : Nat) : Stuffer :=
  s2n_stuffer_write_bytes s (u16be n)

/-- Modelled from the spec: write one byte. -/
def s2n_stuffer_write_uint8 (s : Stuffer) (b : Nat) : Stuffer :=
  s2n_stuffer_write_bytes s [b % 256]

/-- An RSA key (public or private); only its identity and signature size are
visible to this layer. -/
structure RsaKey where
  keyId : Nat
  keySize : Nat
deriving DecidableEq, Repr

/-- DH parameters as the three wire big-endian integers. -/
structure DhParams where
  p : List Nat
  g : List Nat
  Ys : List Nat
deriving DecidableEq, Repr

/-- Modelled from the spec: `s2n_dh_p_g_Ys_to_dh_params` transcodes the three
raw wire blobs into a DH parameter object, rejecting zero-length values as
cryptographically invalid. -/
def s2n_dh_p_g_Ys_to_dh_params (p g Ys : List Nat) : Option DhParams :=
  if p = [] ∨ g = [] ∨ Ys = [] then none else some ⟨p, g, Ys⟩

/-- The serialized parameter region: each of p, g, Ys prefixed by its 16-bit
length.  This is what `s2n_dh_params_to_p_g_Ys` writes to the wire. -/
def wire3 (p g Ys : List Nat) : List Nat :=
  u16be p.length ++ p ++ u16be g.length ++ g ++ u16be Ys.length ++ Ys

/-- The connection's pending cryptographic workspace. -/
structure Pending where
  signature_digest_alg : Nat
  client_random : List Nat
  server_random : List Nat
  server_rsa_public_key : RsaKey
  rsa_key_freed : Bool
  server_dh_params : Option DhParams
deriving DecidableEq, Repr

/-- The connection state relevant to the ServerKeyExchange step. -/
structure Connection where
  actual_protocol_version : Nat
  pending : Pending
  io : Stuffer
  next_state : HandshakeState
  config_dhparams : Option DhParams
  config_private_key : RsaKey
deriving DecidableEq, Repr

/-- Error categories carried through `*err` / the return code. -/
inductive KexError where
  | decodeError
  | unsupportedSignatureAlgorithm
  | unsupportedHashAlgorithm
  | invalidSignature
  | dhError
  | signError
deriving DecidableEq, Repr

/-- Whether an error is a policy error (well-formed but unsupported
algorithm identifier). -/
def KexError.isPolicy : KexError → Bool
  | .unsupportedSignatureAlgorithm => true
  | .unsupportedHashAlgorithm => true
  | _ => false

/-- Collaborator events, recorded in the order the code performs them. -/
inductive Event where
  | hash_init (alg : Nat)
  | hash_update (bytes : List Nat)
  | rsa_verify (signature : List Nat)
  | rsa_public_key_free
  | dh_transcode (p g Ys : List Nat)
  | dh_copy
  | dh_gen
  | rsa_sign
deriving DecidableEq, Repr

/-- Whether an event is a hash-transcript event. -/
def Event.isHash : Event → Bool
  | .hash_init _ => true
  | .hash_update _ => true
  | _ => false

/-- The outcome of one call: C return code, the `*err` category when set,
the mutated connection, and the collaborator events performed. -/
structure CallResult where
  ret : Int
  err : Option KexError
  conn : Connection
  events : List Event
deriving DecidableEq, Repr

/-- The TLS 1.2 algorithm-identifier branch of `s2n_server_key_recv`
(lines 61-77): when the protocol version is `S2N_TLS12`, read the
hash-algorithm byte then the signature-algorithm byte, reject a
signature algorithm other than 1 (RSA) and then a hash algorithm other
than 2 (SHA-1); otherwise do nothing.  Returns the stuffer after the
branch, or the error together with the stuffer state at failure. -/
def s2n_server_key_recv_algbranch (version : Nat) (s : Stuffer) :
    Except (KexError × Stuffer) Stuffer :=
  if version = S2N_TLS12 then
    match s2n_stuffer_read_uint8 s with
    | none => .error (.decodeError, s)
    | some (hash_algorithm, s1) =>
      match s2n_stuffer_read_uint8 s1 with
      | none => .error (.decodeError, s1)
      | some (signature_algorithm, s2) =>
        if signature_algorithm ≠ 1 then
          .error (.unsupportedSignatureAlgorithm, s2)
        else if hash_algorithm ≠ 2 then
          .error (.unsupportedHashAlgorithm, s2)
        else
          .ok s2
  else
    .ok s

/-- Shallow embedding of `s2n_server_key_recv` (lines 28-103).  The RSA
verification collaborator is a parameter `verify` taking the public key, the
hashed transcript bytes and the signature.  On error the function returns -1
with the `*err` category; the connection keeps everything except the advanced
read cursor (and, on the paths past verification, the public-key release). -/
def s2n_server_key_recv
    (verify : RsaKey → List Nat → List Nat → Bool)
    (conn : Connection) : CallResult :=
  match s2n_stuffer_raw_read conn.io 0 with
  | none => ⟨-1, some .decodeError, conn, []⟩
  | some (_, in1) =>
  match s2n_stuffer_read_uint16 in1 with
  | none => ⟨-1, some .decodeError, { conn with io := in1 }, []⟩
  | some (p_length, in2) =>
  match s2n_stuffer_raw_read in2 p_length with
  | none => ⟨-1, some .decodeError, { conn with io := in2 }, []⟩
  | some (p, in3) =>
  match s2n_stuffer_read_uint16 in3 with
  | none => ⟨-1, some .decodeError, { conn with io := in3 }, []⟩
  | some (g_length, in4) =>
  match s2n_stuffer_raw_read in4 g_length with
  | none => ⟨-1, some .decodeError, { conn with io := in4 }, []⟩
  | some (g, in5) =>
  match s2n_stuffer_read_uint16 in5 with
  | none => ⟨-1, some .decodeError, { conn with io := in5 }, []⟩
  | some (Ys_length, in6) =>
  match s2n_stuffer_raw_read in6 Ys_length with
  | none => ⟨-1, some .decodeError, { conn with io := in6 }, []⟩
  | some (Ys, in7) =>
  -- line 59: total size of the anchored region, measured from the entry
  -- read cursor captured by the zero-length raw read at line 39
  let serverDHparams_size := 2 + p_length + 2 + g_length + 2 + Ys_length
  let serverDHparams :=
    (conn.io.blob.drop conn.io.read_cursor).take serverDHparams_size
  match s2n_server_key_recv_algbranch conn.actual_protocol_version in7 with
  | .error (e, sErr) => ⟨-1, some e, { conn with io := sErr }, []⟩
  | .ok in8 =>
  -- lines 79-82: the signature transcript
  let transcript := conn.pending.client_random ++ conn.pending.server_random
      ++ serverDHparams
  let events0 : List Event :=
    [.hash_init conn.pending.signature_digest_alg,
     .hash_update conn.pending.client_random,
     .hash_update conn.pending.server_random,
     .hash_update serverDHparams]
  match s2n_stuffer_read_uint16 in8 with
  | none => ⟨-1, some .decodeError, { conn with io := in8 }, events0⟩
  | some (signature_length, in9) =>
  match s2n_stuffer_raw_read in9 signature_length with
  | none => ⟨-1, some .decodeError, { conn with io := in9 }, events0⟩
  | some (signature, in10) =>
  if verify conn.pending.server_rsa_public_key transcript signature = false then
    ⟨-1, some .invalidSignature, { conn with io := in10 },
      events0 ++ [.rsa_verify signature]⟩
  else
    -- line 95: the key is freed before the DH transcode at line 98
    let connF := { conn with
        io := in10
        pending := { conn.pending with rsa_key_freed := true } }
    let events1 := events0 ++ [.rsa_verify signature, .rsa_public_key_free,
        .dh_transcode p g Ys]
    match s2n_dh_p_g_Ys_to_dh_params p g Ys with
    | none => ⟨-1, some .dhError, connF, events1⟩
    | some dhp =>
      ⟨0, none,
        { connF with
            pending := { connF.pending with server_dh_params := some dhp }
            next_state := .SERVER_HELLO_DONE },
        events1⟩

/-- Shallow embedding of `s2n_server_key_send` (lines 105-146).  The RSA
signing collaborator is the parameter `sign` (failing with `none`), its
signature size is `signSize`, and ephemeral key generation is `genEphemeral`
(the spec's `generate_ephemeral`, failing with `none`). -/
def s2n_server_key_send
    (sign : RsaKey → List Nat → Option (List Nat))
    (signSize : RsaKey → Nat)
    (genEphemeral : DhParams → Option DhParams)
    (conn : Connection) : CallResult :=
  match conn.config_dhparams with
  | none => ⟨-1, some .dhError, conn, []⟩
  | some cfg =>
  -- line 112: duplicate the configured group into the pending workspace
  let conn1 := { conn with
      pending := { conn.pending with server_dh_params := some cfg } }
  -- line 115: generate the ephemeral key in place
  match genEphemeral cfg with
  | none => ⟨-1, some .dhError, conn1, [.dh_copy, .dh_gen]⟩
  | some eph =>
  let conn2 := { conn1 with
      pending := { conn1.pending with server_dh_params := some eph } }
  -- line 118: serialize p, g, Ys and capture the written region
  let serverDHparams := wire3 eph.p eph.g eph.Ys
  let out1 := s2n_stuffer_write_bytes conn2.io serverDHparams
  -- lines 120-125: fixed SHA-1 then RSA identifiers for TLS 1.2
  let out2 :=
    if conn.actual_protocol_version = S2N_TLS12 then
      s2n_stuffer_write_uint8 (s2n_stuffer_write_uint8 out1 2) 1
    else out1
  -- lines 127-130: the signature transcript
  let transcript := conn.pending.client_random ++ conn.pending.server_random
      ++ serverDHparams
  let events0 : List Event :=
    [.dh_copy, .dh_gen,
     .hash_init conn.pending.signature_digest_alg,
     .hash_update conn.pending.client_random,
     .hash_update conn.pending.server_random,
     .hash_update serverDHparams]
  -- lines 132-136: write the signature length and reserve its bytes
  let size := signSize conn.config_private_key
  let out3 := s2n_stuffer_write_uint16 out2 size
  match sign conn.config_private_key transcript with
  | none =>
    ⟨-1, some .signError,
      { conn2 with io := s2n_stuffer_write_bytes out3 (List.replicate size 0) },
      events0 ++ [.rsa_sign]⟩
  | some sigBytes =>
    ⟨0, none,
      { conn2 with
          io := s2n_stuffer_write_bytes out3
            ((sigBytes ++ List.replicate size 0).take size)
          next_state := .SERVER_HELLO_DONE },
      events0 ++ [.rsa_sign]⟩

/-! ### Evaluation lemmas for the stuffer primitives -/

theorem u16be_length (n : Nat) : (u16be n).length = 2 := rfl

theorem wire3_length (p g Ys : List Nat) :
    (wire3 p g Ys).length = 2 + p.length + 2 + g.length + 2 + Ys.length := by
  simp [wire3, u16be]
  omega

theorem take_wire3 (p g Ys rest : List Nat) :
    (wire3 p g Ys ++ rest).take (2 + p.length + 2 + g.length + 2 + Ys.length)
      = wire3 p g Ys := by
  rw [← wire3_length, List.take_left]

theorem s2n_stuffer_raw_read_some (blob xs rest : List Nat) (c w : Nat)
    (h : List.drop c blob = xs ++ rest) (hw : c + xs.length ≤ w) :
    s2n_stuffer_raw_read ⟨blob, c, w⟩ xs.length
      = some (xs, ⟨blob, c + xs.length, w⟩) := by
  unfold s2n_stuffer_raw_read s2n_stuffer_data_available
  dsimp only
  rw [if_pos (by omega)]
  simp only [h, List.take_left]

theorem s2n_stuffer_raw_read_none (blob : List Nat) (c w n : Nat)
    (h : w - c < n) :
    s2n_stuffer_raw_read ⟨blob, c, w⟩ n = none := by
  unfold s2n_stuffer_raw_read s2n_stuffer_data_available
  dsimp only
  rw [if_neg (by omega)]

theorem s2n_stuffer_read_uint16_some (blob rest : List Nat) (c w n : Nat)
    (h : List.drop c blob = u16be n ++ rest) (hw : c + 2 ≤ w)
    (hn : n < 65536) :
    s2n_stuffer_read_uint16 ⟨blob, c, w⟩ = some (n, ⟨blob, c + 2, w⟩) := by
  unfold s2n_stuffer_read_uint16
  rw [show (2 : Nat) = (u16be n).length from rfl,
    s2n_stuffer_raw_read_some blob (u16be n) rest c w h (by simpa [u16be] using hw)]
  simp only [u16be, List.headD, List.tail]
  have h1 : n / 256 < 256 := by omega
  have h2 := Nat.div_add_mod n 256
  congr 1
  congr 1
  rw [Nat.mod_eq_of_lt h1]
  omega

theorem s2n_stuffer_read_uint16_none (blob : List Nat) (c w : Nat)
    (h : w - c < 2) :
    s2n_stuffer_read_uint16 ⟨blob, c, w⟩ = none := by
  unfold s2n_stuffer_read_uint16
  rw [s2n_stuffer_raw_read_none blob c w 2 h]

theorem s2n_stuffer_read_uint8_some (blob rest : List Nat) (c w b : Nat)
    (h : List.drop c blob = b :: rest) (hw : c + 1 ≤ w) :
    s2n_stuffer_read_uint8 ⟨blob, c, w⟩ = some (b, ⟨blob, c + 1, w⟩) := by
  unfold s2n_stuffer_read_uint8
  rw [show (1 : Nat) = ([b] : List Nat).length from rfl,
    s2n_stuffer_raw_read_some blob [b] rest c w (by simpa using h) (by simpa using hw)]
  simp [List.headD]

theorem s2n_stuffer_read_uint8_none (blob : List Nat) (c w : Nat)
    (h : w - c < 1) :
    s2n_stuffer_read_uint8 ⟨blob, c, w⟩ = none := by
  unfold s2n_stuffer_read_uint8
  rw [s2n_stuffer_raw_read_none blob c w 1 h]

/-! ### Evaluation lemmas for the TLS 1.2 algorithm-identifier branch -/

/-- The algorithm-identifier bytes the encoder emits and the decoder accepts:
hash = 2 (SHA-1) then signature = 1 (RSA) when the version is TLS 1.2,
nothing otherwise. -/
def algsuffix (v : Nat) : List Nat := if v = S2N_TLS12 then [2, 1] else []

theorem algsuffix_length (v : Nat) :
    (algsuffix v).length = if v = S2N_TLS12 then 2 else 0 := by
  unfold algsuffix
  split <;> rfl

theorem algbranch_accepts (v : Nat) (blob rest : List Nat) (c w : Nat)
    (h : List.drop c blob = algsuffix v ++ rest)
    (hw : c + (algsuffix v).length ≤ w) :
    s2n_server_key_recv_algbranch v ⟨blob, c, w⟩
      = .ok ⟨blob, c + (algsuffix v).length, w⟩ := by
  unfold s2n_server_key_recv_algbranch
  by_cases hv : v = S2N_TLS12
  · rw [algsuffix, if_pos hv] at h hw
    simp only [List.length_cons, List.length_nil] at hw
    have e1 : s2n_stuffer_read_uint8 ⟨blob, c, w⟩ = some (2, ⟨blob, c + 1, w⟩) :=
      s2n_stuffer_read_uint8_some blob (1 :: rest) c w 2 (by simpa using h)
        (by omega)
    have e2 : s2n_stuffer_read_uint8 ⟨blob, c + 1, w⟩
        = some (1, ⟨blob, c + 1 + 1, w⟩) :=
      s2n_stuffer_read_uint8_some blob rest (c + 1) w 1
        (by rw [show c + 1 = c + ([2] : List Nat).length from rfl,
              ← List.drop_drop, h]; rfl)
        (by omega)
    rw [if_pos hv]
    simp only [e1, e2]
    norm_num
    rw [algsuffix_length, if_pos hv, show c + 1 + 1 = c + 2 by omega]
  · rw [if_neg hv]
    rw [algsuffix_length, if_neg hv, Nat.add_zero]

theorem algbranch_rejects (blob rest : List Nat) (c w ha sa : Nat)
    (h : List.drop c blob = ha :: sa :: rest) (hw : c + 2 ≤ w)
    (hbad : sa ≠ 1 ∨ ha ≠ 2) :
    s2n_server_key_recv_algbranch S2N_TLS12 ⟨blob, c, w⟩
      = .error
        ((if sa ≠ 1 then .unsupportedSignatureAlgorithm
          else .unsupportedHashAlgorithm),
         ⟨blob, c + 2, w⟩) := by
  unfold s2n_server_key_recv_algbranch
  have e1 : s2n_stuffer_read_uint8 ⟨blob, c, w⟩ = some (ha, ⟨blob, c + 1, w⟩) :=
    s2n_stuffer_read_uint8_some blob (sa :: rest) c w ha h (by omega)
  have e2 : s2n_stuffer_read_uint8 ⟨blob, c + 1, w⟩
      = some (sa, ⟨blob, c + 1 + 1, w⟩) :=
    s2n_stuffer_read_uint8_some blob rest (c + 1) w sa
      (by rw [show c + 1 = c + ([ha] : List Nat).length from rfl,
            ← List.drop_drop, h]; rfl)
      (by omega)
  rw [if_pos rfl]
  simp only [e1, e2]
  rw [show c + 1 + 1 = c + 2 by omega]
  by_cases hsa : sa = 1
  · have hha : ha ≠ 2 := by tauto
    rw [if_neg (by simpa using hsa), if_pos (by simpa using hha),
      if_neg (by simpa using hsa)]
  · rw [if_pos (by simpa using hsa), if_pos (by simpa using hsa)]

/-! ### Evaluation of the whole decoder on a structured input -/

theorem drop_chain (blob xs rest : List Nat) (c c' : Nat)
    (h : List.drop c blob = xs ++ rest) (hc : c' = c + xs.length) :
    List.drop c' blob = rest := by
  subst hc
  rw [← List.drop_drop, h, List.drop_left]

theorem s2n_stuffer_raw_read_zero (blob : List Nat) (c w : Nat) :
    s2n_stuffer_raw_read ⟨blob, c, w⟩ 0 = some ([], ⟨blob, c, w⟩) := by
  unfold s2n_stuffer_raw_read s2n_stuffer_data_available
  dsimp only
  rw [if_pos (by omega)]
  simp

/-- The transcript both sides hash for parameter region (p, g, Ys):
client random, then server random, then the serialized parameter region. -/
def transcriptOf (conn : Connection) (p g Ys : List Nat) : List Nat :=
  conn.pending.client_random ++ conn.pending.server_random ++ wire3 p g Ys

/-- The four hash-transcript events both sides perform, in order. -/
def hashEventsOf (conn : Connection) (p g Ys : List Nat) : List Event :=
  [.hash_init conn.pending.signature_digest_alg,
   .hash_update conn.pending.client_random,
   .hash_update conn.pending.server_random,
   .hash_update (wire3 p g Ys)]

/-- A well-formed ServerKeyExchange body for version `v`: the parameter
region, the algorithm identifiers when v is TLS 1.2, then the
length-prefixed signature. -/
def wireBody (v : Nat) (p g Ys sig : List Nat) : List Nat :=
  wire3 p g Ys ++ algsuffix v ++ u16be sig.length ++ sig

/-- Evaluation of `s2n_server_key_recv` on a well-formed body (with any
trailing bytes left in the stuffer): all reads succeed, the transcript is
hashed, and the outcome is decided by the verification collaborator and then
the DH transcoder. -/
theorem s2n_server_key_recv_eval
    (verify : RsaKey → List Nat → List Nat → Bool) (conn : Connection)
    (p g Ys sig tail : List Nat)
    (hp : p.length < 65536) (hg : g.length < 65536) (hy : Ys.length < 65536)
    (hs : sig.length < 65536)
    (hio : conn.io =
      ⟨wireBody conn.actual_protocol_version p g Ys sig ++ tail, 0,
       (wireBody conn.actual_protocol_version p g Ys sig ++ tail).length⟩) :
    s2n_server_key_recv verify conn =
      (let endio : Stuffer :=
        ⟨conn.io.blob,
         2 + p.length + 2 + g.length + 2 + Ys.length
           + (algsuffix conn.actual_protocol_version).length + 2 + sig.length,
         conn.io.write_cursor⟩
      if verify conn.pending.server_rsa_public_key
          (transcriptOf conn p g Ys) sig = false then
        ⟨-1, some .invalidSignature, { conn with io := endio },
          hashEventsOf conn p g Ys ++ [.rsa_verify sig]⟩
      else
        match s2n_dh_p_g_Ys_to_dh_params p g Ys with
        | none =>
          ⟨-1, some .dhError,
            { conn with
                io := endio
                pending := { conn.pending with rsa_key_freed := true } },
            hashEventsOf conn p g Ys
              ++ [.rsa_verify sig, .rsa_public_key_free, .dh_transcode p g Ys]⟩
        | some dhp =>
          ⟨0, none,
            { conn with
                io := endio
                pending := { conn.pending with
                  rsa_key_freed := true
                  server_dh_params := some dhp }
                next_state := .SERVER_HELLO_DONE },
            hashEventsOf conn p g Ys
              ++ [.rsa_verify sig, .rsa_public_key_free,
                  .dh_transcode p g Ys]⟩) := by
  set v := conn.actual_protocol_version with hv
  set B := wireBody v p g Ys sig ++ tail with hB
  have hBlen : B.length = 2 + p.length + 2 + g.length + 2 + Ys.length
      + (algsuffix v).length + 2 + sig.length + tail.length := by
    simp [hB, wireBody, wire3, u16be]
    omega
  have d0 : List.drop 0 B = u16be p.length ++ (p ++ (u16be g.length ++ (g ++
      (u16be Ys.length ++ (Ys ++ (algsuffix v ++ (u16be sig.length ++
      (sig ++ tail)))))))) := by
    simp [hB, wireBody, wire3, List.append_assoc]
  have d1 : List.drop 2 B = p ++ (u16be g.length ++ (g ++
      (u16be Ys.length ++ (Ys ++ (algsuffix v ++ (u16be sig.length ++
      (sig ++ tail))))))) :=
    drop_chain B _ _ 0 2 d0 (by simp [u16be])
  have d2 : List.drop (2 + p.length) B = u16be g.length ++ (g ++
      (u16be Ys.length ++ (Ys ++ (algsuffix v ++ (u16be sig.length ++
      (sig ++ tail)))))) :=
    drop_chain B _ _ 2 (2 + p.length) d1 (by omega)
  have d3 : List.drop (2 + p.length + 2) B = g ++
      (u16be Ys.length ++ (Ys ++ (algsuffix v ++ (u16be sig.length ++
      (sig ++ tail))))) :=
    drop_chain B _ _ (2 + p.length) (2 + p.length + 2) d2 (by simp [u16be])
  have d4 : List.drop (2 + p.length + 2 + g.length) B =
      u16be Ys.length ++ (Ys ++ (algsuffix v ++ (u16be sig.length ++
      (sig ++ tail)))) :=
    drop_chain B _ _ (2 + p.length + 2) (2 + p.length + 2 + g.length) d3
      (by omega)
  have d5 : List.drop (2 + p.length + 2 + g.length + 2) B =
      Ys ++ (algsuffix v ++ (u16be sig.length ++ (sig ++ tail))) :=
    drop_chain B _ _ (2 + p.length + 2 + g.length)
      (2 + p.length + 2 + g.length + 2) d4 (by simp [u16be])
  have d6 : List.drop (2 + p.length + 2 + g.length + 2 + Ys.length) B =
      algsuffix v ++ (u16be sig.length ++ (sig ++ tail)) :=
    drop_chain B _ _ (2 + p.length + 2 + g.length + 2)
      (2 + p.length + 2 + g.length + 2 + Ys.length) d5 (by omega)
  have d7 : List.drop (2 + p.length + 2 + g.length + 2 + Ys.length
      + (algsuffix v).length) B = u16be sig.length ++ (sig ++ tail) :=
    drop_chain B _ _ _ _ d6 rfl
  have d8 : List.drop (2 + p.length + 2 + g.length + 2 + Ys.length
      + (algsuffix v).length + 2) B = sig ++ tail :=
    drop_chain B _ _ _ _ d7 (by simp [u16be])
  have e0 : s2n_stuffer_raw_read ⟨B, 0, B.length⟩ 0
      = some ([], ⟨B, 0, B.length⟩) :=
    s2n_stuffer_raw_read_zero B 0 B.length
  have e1 : s2n_stuffer_read_uint16 ⟨B, 0, B.length⟩
      = some (p.length, ⟨B, 2, B.length⟩) := by
    have := s2n_stuffer_read_uint16_some B _ 0 B.length p.length d0
      (by omega) hp
    simpa using this
  have e2 : s2n_stuffer_raw_read ⟨B, 2, B.length⟩ p.length
      = some (p, ⟨B, 2 + p.length, B.length⟩) :=
    s2n_stuffer_raw_read_some B p _ 2 B.length d1 (by omega)
  have e3 : s2n_stuffer_read_uint16 ⟨B, 2 + p.length, B.length⟩
      = some (g.length, ⟨B, 2 + p.length + 2, B.length⟩) :=
    s2n_stuffer_read_uint16_some B _ (2 + p.length) B.length g.length d2
      (by omega) hg
  have e4 : s2n_stuffer_raw_read ⟨B, 2 + p.length + 2, B.length⟩ g.length
      = some (g, ⟨B, 2 + p.length + 2 + g.length, B.length⟩) :=
    s2n_stuffer_raw_read_some B g _ (2 + p.length + 2) B.length d3 (by omega)
  have e5 : s2n_stuffer_read_uint16 ⟨B, 2 + p.length + 2 + g.length, B.length⟩
      = some (Ys.length, ⟨B, 2 + p.length + 2 + g.length + 2, B.length⟩) :=
    s2n_stuffer_read_uint16_some B _ (2 + p.length + 2 + g.length) B.length
      Ys.length d4 (by omega) hy
  have e6 : s2n_stuffer_raw_read
      ⟨B, 2 + p.length + 2 + g.length + 2, B.length⟩ Ys.length
      = some (Ys, ⟨B, 2 + p.length + 2 + g.length + 2 + Ys.length,
          B.length⟩) :=
    s2n_stuffer_raw_read_some B Ys _ (2 + p.length + 2 + g.length + 2)
      B.length d5 (by omega)
  have e7 : s2n_server_key_recv_algbranch v
      ⟨B, 2 + p.length + 2 + g.length + 2 + Ys.length, B.length⟩
      = .ok ⟨B, 2 + p.length + 2 + g.length + 2 + Ys.length
          + (algsuffix v).length, B.length⟩ :=
    algbranch_accepts v B _ (2 + p.length + 2 + g.length + 2 + Ys.length)
      B.length d6 (by omega)
  have e8 : s2n_stuffer_read_uint16 ⟨B, 2 + p.length + 2 + g.length + 2
      + Ys.length + (algsuffix v).length, B.length⟩
      = some (sig.length, ⟨B, 2 + p.length + 2 + g.length + 2 + Ys.length
          + (algsuffix v).length + 2, B.length⟩) :=
    s2n_stuffer_read_uint16_some B _ _ B.length sig.length d7 (by omega) hs
  have e9 : s2n_stuffer_raw_read ⟨B, 2 + p.length + 2 + g.length + 2
      + Ys.length + (algsuffix v).length + 2, B.length⟩ sig.length
      = some (sig, ⟨B, 2 + p.length + 2 + g.length + 2 + Ys.length
          + (algsuffix v).length + 2 + sig.length, B.length⟩) :=
    s2n_stuffer_raw_read_some B sig _ _ B.length d8 (by omega)
  have hregion : (List.drop 0 B).take
      (2 + p.length + 2 + g.length + 2 + Ys.length) = wire3 p g Ys := by
    rw [List.drop_zero, hB, wireBody, List.append_assoc, List.append_assoc,
      List.append_assoc, take_wire3]
  unfold s2n_server_key_recv
  rw [hio]
  simp only [← hv, ← hB]
  simp only [e0, e1, e2, e3, e4, e5, e6, e7, e8, e9, hregion]
  rfl

/-- Evaluation of `s2n_server_key_recv` on a TLS 1.2 input whose
algorithm-identifier bytes are not the supported (SHA-1 = 2, RSA = 1) pair:
the call fails with the signature-algorithm error when the signature byte is
wrong (checked first), else with the hash-algorithm error, having read both
bytes and performed no collaborator event at all. -/
theorem s2n_server_key_recv_eval_badalg
    (verify : RsaKey → List Nat → List Nat → Bool) (conn : Connection)
    (p g Ys rest : List Nat) (ha sa : Nat)
    (hp : p.length < 65536) (hg : g.length < 65536) (hy : Ys.length < 65536)
    (hv : conn.actual_protocol_version = S2N_TLS12)
    (hio : conn.io = ⟨wire3 p g Ys ++ ha :: sa :: rest, 0,
       (wire3 p g Ys ++ ha :: sa :: rest).length⟩)
    (hbad : sa ≠ 1 ∨ ha ≠ 2) :
    s2n_server_key_recv verify conn =
      ⟨-1,
       some (if sa ≠ 1 then .unsupportedSignatureAlgorithm
             else .unsupportedHashAlgorithm),
       { conn with io := ⟨conn.io.blob,
           2 + p.length + 2 + g.length + 2 + Ys.length + 2,
           conn.io.write_cursor⟩ },
       []⟩ := by
  set B := wire3 p g Ys ++ ha :: sa :: rest with hB
  have hBlen : B.length
      = 2 + p.length + 2 + g.length + 2 + Ys.length + 2 + rest.length := by
    simp [hB, wire3, u16be]
    omega
  have d0 : List.drop 0 B = u16be p.length ++ (p ++ (u16be g.length ++ (g ++
      (u16be Ys.length ++ (Ys ++ (ha :: sa :: rest)))))) := by
    simp [hB, wire3, List.append_assoc]
  have d1 : List.drop 2 B = p ++ (u16be g.length ++ (g ++
      (u16be Ys.length ++ (Ys ++ (ha :: sa :: rest))))) :=
    drop_chain B _ _ 0 2 d0 (by simp [u16be])
  have d2 : List.drop (2 + p.length) B = u16be g.length ++ (g ++
      (u16be Ys.length ++ (Ys ++ (ha :: sa :: rest)))) :=
    drop_chain B _ _ 2 (2 + p.length) d1 (by omega)
  have d3 : List.drop (2 + p.length + 2) B = g ++
      (u16be Ys.length ++ (Ys ++ (ha :: sa :: rest))) :=
    drop_chain B _ _ (2 + p.length) (2 + p.length + 2) d2 (by simp [u16be])
  have d4 : List.drop (2 + p.length + 2 + g.length) B =
      u16be Ys.length ++ (Ys ++ (ha :: sa :: rest)) :=
    drop_chain B _ _ (2 + p.length + 2) (2 + p.length + 2 + g.length) d3
      (by omega)
  have d5 : List.drop (2 + p.length + 2 + g.length + 2) B =
      Ys ++ (ha :: sa :: rest) :=
    drop_chain B _ _ (2 + p.length + 2 + g.length)
      (2 + p.length + 2 + g.length + 2) d4 (by simp [u16be])
  have d6 : List.drop (2 + p.length + 2 + g.length + 2 + Ys.length) B =
      ha :: sa :: rest :=
    drop_chain B _ _ (2 + p.length + 2 + g.length + 2)
      (2 + p.length + 2 + g.length + 2 + Ys.length) d5 (by omega)
  have e0 : s2n_stuffer_raw_read ⟨B, 0, B.length⟩ 0
      = some ([], ⟨B, 0, B.length⟩) :=
    s2n_stuffer_raw_read_zero B 0 B.length
  have e1 : s2n_stuffer_read_uint16 ⟨B, 0, B.length⟩
      = some (p.length, ⟨B, 2, B.length⟩) := by
    have := s2n_stuffer_read_uint16_some B _ 0 B.length p.length d0
      (by omega) hp
    simpa using this
  have e2 : s2n_stuffer_raw_read ⟨B, 2, B.length⟩ p.length
      = some (p, ⟨B, 2 + p.length, B.length⟩) :=
    s2n_stuffer_raw_read_some B p _ 2 B.length d1 (by omega)
  have e3 : s2n_stuffer_read_uint16 ⟨B, 2 + p.length, B.length⟩
      = some (g.length, ⟨B, 2 + p.length + 2, B.length⟩) :=
    s2n_stuffer_read_uint16_some B _ (2 + p.length) B.length g.length d2
      (by omega) hg
  have e4 : s2n_stuffer_raw_read ⟨B, 2 + p.length + 2, B.length⟩ g.length
      = some (g, ⟨B, 2 + p.length + 2 + g.length, B.length⟩) :=
    s2n_stuffer_raw_read_some B g _ (2 + p.length + 2) B.length d3 (by omega)
  have e5 : s2n_stuffer_read_uint16 ⟨B, 2 + p.length + 2 + g.length, B.length⟩
      = some (Ys.length, ⟨B, 2 + p.length + 2 + g.length + 2, B.length⟩) :=
    s2n_stuffer_read_uint16_some B _ (2 + p.length + 2 + g.length) B.length
      Ys.length d4 (by omega) hy
  have e6 : s2n_stuffer_raw_read
      ⟨B, 2 + p.length + 2 + g.length + 2, B.length⟩ Ys.length
      = some (Ys, ⟨B, 2 + p.length + 2 + g.length + 2 + Ys.length,
          B.length⟩) :=
    s2n_stuffer_raw_read_some B Ys _ (2 + p.length + 2 + g.length + 2)
      B.length d5 (by omega)
  have e7 : s2n_server_key_recv_algbranch conn.actual_protocol_version
      ⟨B, 2 + p.length + 2 + g.length + 2 + Ys.length, B.length⟩
      = .error
        ((if sa ≠ 1 then .unsupportedSignatureAlgorithm
          else .unsupportedHashAlgorithm),
         ⟨B, 2 + p.length + 2 + g.length + 2 + Ys.length + 2, B.length⟩) := by
    rw [hv]
    exact algbranch_rejects B rest _ B.length ha sa d6 (by omega) hbad
  unfold s2n_server_key_recv
  rw [hio]
  simp only [← hB]
  simp only [e0, e1, e2, e3, e4, e5, e6, e7]

/-! ### Reads on a truncated prefix of a buffer -/

theorem drop_take_of_drop (full xs rest : List Nat) (c cut : Nat)
    (h : List.drop c full = xs ++ rest) (hcut : c + xs.length ≤ cut) :
    List.drop c (full.take cut) = xs ++ rest.take (cut - c - xs.length) := by
  rw [List.drop_take, h, List.take_append_eq_append_take,
    List.take_of_length_le (by omega)]

theorem s2n_stuffer_raw_read_prefix (F xs rest : List Nat) (c cut : Nat)
    (hd : List.drop c F = xs ++ rest) (hcut2 : c + xs.length ≤ cut)
    (hcF : c ≤ F.length) :
    s2n_stuffer_raw_read ⟨F.take cut, c, (F.take cut).length⟩ xs.length
      = some (xs, ⟨F.take cut, c + xs.length, (F.take cut).length⟩) := by
  refine s2n_stuffer_raw_read_some (F.take cut) xs
    (rest.take (cut - c - xs.length)) c _
    (drop_take_of_drop F xs rest c cut hd hcut2) ?_
  have hFc : F.length - c = xs.length + rest.length := by
    rw [← List.length_drop, hd, List.length_append]
  rw [List.length_take]
  omega

theorem s2n_stuffer_read_uint16_prefix (F rest : List Nat) (c cut n : Nat)
    (hd : List.drop c F = u16be n ++ rest) (hcut2 : c + 2 ≤ cut)
    (hn : n < 65536) (hcF : c ≤ F.length) :
    s2n_stuffer_read_uint16 ⟨F.take cut, c, (F.take cut).length⟩
      = some (n, ⟨F.take cut, c + 2, (F.take cut).length⟩) := by
  refine s2n_stuffer_read_uint16_some (F.take cut)
    (rest.take (cut - c - 2)) c _ n ?_ ?_ hn
  · have := drop_take_of_drop F (u16be n) rest c cut hd
      (by simp only [u16be_length]; omega)
    simpa [u16be_length] using this
  · have hFc : F.length - c = 2 + rest.length := by
      rw [← List.length_drop, hd, List.length_append, u16be_length]
    rw [List.length_take]
    omega

theorem s2n_stuffer_read_uint8_prefix (F rest : List Nat) (c cut b : Nat)
    (hd : List.drop c F = b :: rest) (hcut2 : c + 1 ≤ cut)
    (hcF : c ≤ F.length) :
    s2n_stuffer_read_uint8 ⟨F.take cut, c, (F.take cut).length⟩
      = some (b, ⟨F.take cut, c + 1, (F.take cut).length⟩) := by
  refine s2n_stuffer_read_uint8_some (F.take cut)
    ((rest).take (cut - c - 1)) c _ b ?_ ?_
  · have := drop_take_of_drop F [b] rest c cut (by simpa using hd)
      (by simpa using hcut2)
    simpa using this
  · have hFc : F.length - c = 1 + rest.length := by
      rw [← List.length_drop, hd]
      simp
      omega
    rw [List.length_take]
    omega

theorem algbranch_accepts_prefix (v : Nat) (F rest : List Nat) (c cut : Nat)
    (hd : List.drop c F = algsuffix v ++ rest)
    (hcut2 : c + (algsuffix v).length ≤ cut) (hcF : c ≤ F.length) :
    s2n_server_key_recv_algbranch v ⟨F.take cut, c, (F.take cut).length⟩
      = .ok ⟨F.take cut, c + (algsuffix v).length, (F.take cut).length⟩ := by
  refine algbranch_accepts v (F.take cut) _ c _
    (drop_take_of_drop F (algsuffix v) rest c cut hd hcut2) ?_
  have hFc : F.length - c = (algsuffix v).length + rest.length := by
    rw [← List.length_drop, hd, List.length_append]
  rw [List.length_take]
  omega

theorem algbranch_trunc1 (blob : List Nat) (c w : Nat) (h : w - c < 1) :
    s2n_server_key_recv_algbranch S2N_TLS12 ⟨blob, c, w⟩
      = .error (.decodeError, ⟨blob, c, w⟩) := by
  unfold s2n_server_key_recv_algbranch
  rw [if_pos rfl, s2n_stuffer_read_uint8_none blob c w h]

theorem algbranch_trunc2 (blob rest : List Nat) (c w b : Nat)
    (hd : List.drop c blob = b :: rest) (hw : c + 1 ≤ w)
    (h2 : w - (c + 1) < 1) :
    s2n_server_key_recv_algbranch S2N_TLS12 ⟨blob, c, w⟩
      = .error (.decodeError, ⟨blob, c + 1, w⟩) := by
  unfold s2n_server_key_recv_algbranch
  have e1 := s2n_stuffer_read_uint8_some blob rest c w b hd hw
  have e2 := s2n_stuffer_read_uint8_none blob (c + 1) w h2
  rw [if_pos rfl]
  simp only [e1, e2]

/-! ### Frame lemmas: reads only advance the read cursor -/

theorem s2n_stuffer_raw_read_inv (s : Stuffer) (n : Nat) (b : List Nat)
    (s' : Stuffer) (h : s2n_stuffer_raw_read s n = some (b, s')) :
    s' = { s with read_cursor := s.read_cursor + n } := by
  unfold s2n_stuffer_raw_read at h
  split at h
  · simp only [Option.some.injEq, Prod.mk.injEq] at h
    exact h.2.symm
  · exact absurd h (by simp)

theorem s2n_stuffer_read_uint16_inv (s : Stuffer) (n : Nat) (s' : Stuffer)
    (h : s2n_stuffer_read_uint16 s = some (n, s')) :
    s' = { s with read_cursor := s.read_cursor + 2 } := by
  unfold s2n_stuffer_read_uint16 at h
  rcases hr : s2n_stuffer_raw_read s 2 with _ | ⟨b, s''⟩ <;> rw [hr] at h
  · exact absurd h (by simp)
  · simp only [Option.some.injEq, Prod.mk.injEq] at h
    rw [← h.2]
    exact s2n_stuffer_raw_read_inv s 2 b s'' hr

theorem s2n_stuffer_read_uint8_inv (s : Stuffer) (n : Nat) (s' : Stuffer)
    (h : s2n_stuffer_read_uint8 s = some (n, s')) :
    s' = { s with read_cursor := s.read_cursor + 1 } := by
  unfold s2n_stuffer_read_uint8 at h
  rcases hr : s2n_stuffer_raw_read s 1 with _ | ⟨b, s''⟩ <;> rw [hr] at h
  · exact absurd h (by simp)
  · simp only [Option.some.injEq, Prod.mk.injEq] at h
    rw [← h.2]
    exact s2n_stuffer_raw_read_inv s 1 b s'' hr

/-- Two stuffers that share the backing buffer and write cursor (they can
differ only in the read offset). -/
def sameBuf (a b : Stuffer) : Prop :=
  a.blob = b.blob ∧ a.write_cursor = b.write_cursor

theorem sameBuf_refl (a : Stuffer) : sameBuf a a := ⟨rfl, rfl⟩

theorem sameBuf_trans (a b c : Stuffer) (h1 : sameBuf a b) (h2 : sameBuf b c) :
    sameBuf a c := ⟨h1.1.trans h2.1, h1.2.trans h2.2⟩

theorem raw_read_sameBuf (s : Stuffer) (n : Nat) (b : List Nat) (s' : Stuffer)
    (h : s2n_stuffer_raw_read s n = some (b, s')) : sameBuf s' s := by
  rw [s2n_stuffer_raw_read_inv s n b s' h]
  exact ⟨rfl, rfl⟩

theorem read_uint16_sameBuf (s : Stuffer) (n : Nat) (s' : Stuffer)
    (h : s2n_stuffer_read_uint16 s = some (n, s')) : sameBuf s' s := by
  rw [s2n_stuffer_read_uint16_inv s n s' h]
  exact ⟨rfl, rfl⟩

theorem read_uint8_sameBuf (s : Stuffer) (n : Nat) (s' : Stuffer)
    (h : s2n_stuffer_read_uint8 s = some (n, s')) : sameBuf s' s := by
  rw [s2n_stuffer_read_uint8_inv s n s' h]
  exact ⟨rfl, rfl⟩

theorem algbranch_sameBuf (v : Nat) (s : Stuffer) :
    (∀ s', s2n_server_key_recv_algbranch v s = .ok s' → sameBuf s' s) ∧
    (∀ e s', s2n_server_key_recv_algbranch v s = .error (e, s') →
      sameBuf s' s) := by
  unfold s2n_server_key_recv_algbranch
  split
  · rcases h1 : s2n_stuffer_read_uint8 s with _ | ⟨b1, s1⟩
    · constructor
      · intro s' h
        exact absurd h (by simp)
      · intro e s' h
        simp only [Except.error.injEq, Prod.mk.injEq] at h
        rw [← h.2]
        exact sameBuf_refl s
    · have f1 := read_uint8_sameBuf s b1 s1 h1
      rcases h2 : s2n_stuffer_read_uint8 s1 with _ | ⟨b2, s2⟩
      · constructor
        · intro s' h
          simp only [h2] at h
          exact absurd h (by simp)
        · intro e s' h
          simp only [h2, Except.error.injEq, Prod.mk.injEq] at h
          rw [← h.2]
          exact f1
      · have f2 := sameBuf_trans s2 s1 s (read_uint8_sameBuf s1 b2 s2 h2) f1
        constructor
        · intro s' h
          simp only [h1, h2] at h
          split at h
          · exact absurd h (by simp)
          · split at h
            · exact absurd h (by simp)
            · simp only [Except.ok.injEq] at h
              rw [← h]
              exact f2
        · intro e s' h
          simp only [h1, h2] at h
          split at h
          · simp only [Except.error.injEq, Prod.mk.injEq] at h
            rw [← h.2]
            exact f2
          · split at h
            · simp only [Except.error.injEq, Prod.mk.injEq] at h
              rw [← h.2]
              exact f2
            · exact absurd h (by simp)
  · constructor
    · intro s' h
      simp only [Except.ok.injEq] at h
      rw [← h]
      exact sameBuf_refl s
    · intro e s' h
      exact absurd h (by simp)

/-- Every path of the decoder leaves the buffer and the write cursor of the
handshake stuffer intact, and never touches the protocol version, the
configuration, the randoms, the digest algorithm or the public-key value. -/
theorem s2n_server_key_recv_frame
    (verify : RsaKey → List Nat → List Nat → Bool) (conn : Connection) :
    sameBuf (s2n_server_key_recv verify conn).conn.io conn.io ∧
    (s2n_server_key_recv verify conn).conn.actual_protocol_version
      = conn.actual_protocol_version ∧
    (s2n_server_key_recv verify conn).conn.config_dhparams
      = conn.config_dhparams ∧
    (s2n_server_key_recv verify conn).conn.config_private_key
      = conn.config_private_key ∧
    (s2n_server_key_recv verify conn).conn.pending.signature_digest_alg
      = conn.pending.signature_digest_alg ∧
    (s2n_server_key_recv verify conn).conn.pending.client_random
      = conn.pending.client_random ∧
    (s2n_server_key_recv verify conn).conn.pending.server_random
      = conn.pending.server_random ∧
    (s2n_server_key_recv verify conn).conn.pending.server_rsa_public_key
      = conn.pending.server_rsa_public_key := by
  unfold s2n_server_key_recv
  rcases h0 : s2n_stuffer_raw_read conn.io 0 with _ | ⟨b0, s0⟩
  · exact ⟨sameBuf_refl _, rfl, rfl, rfl, rfl, rfl, rfl, rfl⟩
  dsimp only
  have f0 := raw_read_sameBuf _ _ _ _ h0
  rcases h1 : s2n_stuffer_read_uint16 s0 with _ | ⟨n1, s1⟩
  · exact ⟨f0, rfl, rfl, rfl, rfl, rfl, rfl, rfl⟩
  dsimp only
  have f1 := sameBuf_trans _ _ _ (read_uint16_sameBuf _ _ _ h1) f0
  rcases h2 : s2n_stuffer_raw_read s1 n1 with _ | ⟨p, s2⟩
  · exact ⟨f1, rfl, rfl, rfl, rfl, rfl, rfl, rfl⟩
  dsimp only
  have f2 := sameBuf_trans _ _ _ (raw_read_sameBuf _ _ _ _ h2) f1
  rcases h3 : s2n_stuffer_read_uint16 s2 with _ | ⟨n3, s3⟩
  · exact ⟨f2, rfl, rfl, rfl, rfl, rfl, rfl, rfl⟩
  dsimp only
  have f3 := sameBuf_trans _ _ _ (read_uint16_sameBuf _ _ _ h3) f2
  rcases h4 : s2n_stuffer_raw_read s3 n3 with _ | ⟨g, s4⟩
  · exact ⟨f3, rfl, rfl, rfl, rfl, rfl, rfl, rfl⟩
  dsimp only
  have f4 := sameBuf_trans _ _ _ (raw_read_sameBuf _ _ _ _ h4) f3
  rcases h5 : s2n_stuffer_read_uint16 s4 with _ | ⟨n5, s5⟩
  · exact ⟨f4, rfl, rfl, rfl, rfl, rfl, rfl, rfl⟩
  dsimp only
  have f5 := sameBuf_trans _ _ _ (read_uint16_sameBuf _ _ _ h5) f4
  rcases h6 : s2n_stuffer_raw_read s5 n5 with _ | ⟨Ys, s6⟩
  · exact ⟨f5, rfl, rfl, rfl, rfl, rfl, rfl, rfl⟩
  dsimp only
  have f6 := sameBuf_trans _ _ _ (raw_read_sameBuf _ _ _ _ h6) f5
  rcases hA : s2n_server_key_recv_algbranch conn.actual_protocol_version s6
      with ⟨e, sE⟩ | s7
  · have fE := sameBuf_trans _ _ _
      ((algbranch_sameBuf conn.actual_protocol_version s6).2 e sE hA) f6
    exact ⟨fE, rfl, rfl, rfl, rfl, rfl, rfl, rfl⟩
  dsimp only
  have f7 := sameBuf_trans _ _ _
    ((algbranch_sameBuf conn.actual_protocol_version s6).1 s7 hA) f6
  rcases h8 : s2n_stuffer_read_uint16 s7 with _ | ⟨n8, s8⟩
  · exact ⟨f7, rfl, rfl, rfl, rfl, rfl, rfl, rfl⟩
  dsimp only
  have f8 := sameBuf_trans _ _ _ (read_uint16_sameBuf _ _ _ h8) f7
  rcases h9 : s2n_stuffer_raw_read s8 n8 with _ | ⟨sig, s9⟩
  · exact ⟨f8, rfl, rfl, rfl, rfl, rfl, rfl, rfl⟩
  dsimp only
  have f9 := sameBuf_trans _ _ _ (raw_read_sameBuf _ _ _ _ h9) f8
  split
  · exact ⟨f9, rfl, rfl, rfl, rfl, rfl, rfl, rfl⟩
  split
  · exact ⟨f9, rfl, rfl, rfl, rfl, rfl, rfl, rfl⟩
  · exact ⟨f9, rfl, rfl, rfl, rfl, rfl, rfl, rfl⟩

/-- On every failing path of the decoder the next-state and the DH parameter
workspace are untouched, and the public-key resource is untouched unless the
failure is the DH transcoding one (which happens after the key release). -/
theorem s2n_server_key_recv_err_frame
    (verify : RsaKey → List Nat → List Nat → Bool) (conn : Connection) :
    (s2n_server_key_recv verify conn).ret = -1 →
      (s2n_server_key_recv verify conn).conn.next_state = conn.next_state ∧
      (s2n_server_key_recv verify conn).conn.pending.server_dh_params
        = conn.pending.server_dh_params ∧
      ((s2n_server_key_recv verify conn).conn.pending.rsa_key_freed
          = conn.pending.rsa_key_freed ∨
        (s2n_server_key_recv verify conn).err = some .dhError) := by
  unfold s2n_server_key_recv
  repeat' split
  all_goals try simp
  all_goals (repeat' split)
  all_goals simp

/-! ### Evaluation of the encoder -/

theorem s2n_stuffer_write_bytes_eval (s : Stuffer) (bs : List Nat)
    (h : s.write_cursor = s.blob.length) :
    s2n_stuffer_write_bytes s bs
      = ⟨s.blob ++ bs, s.read_cursor, (s.blob ++ bs).length⟩ := by
  unfold s2n_stuffer_write_bytes
  rw [h, List.take_length, List.length_append]

theorem s2n_stuffer_write_bytes_lit (B : List Nat) (rc : Nat)
    (bs : List Nat) :
    s2n_stuffer_write_bytes ⟨B, rc, B.length⟩ bs
      = ⟨B ++ bs, rc, (B ++ bs).length⟩ :=
  s2n_stuffer_write_bytes_eval ⟨B, rc, B.length⟩ bs rfl

/-- The collaborator events of a successful run of the encoder up to (and
including) the transcript hashing. -/
def sendEventsOf (conn : Connection) (eph : DhParams) : List Event :=
  [.dh_copy, .dh_gen, .hash_init conn.pending.signature_digest_alg,
   .hash_update conn.pending.client_random,
   .hash_update conn.pending.server_random,
   .hash_update (wire3 eph.p eph.g eph.Ys)]

/-- Evaluation of `s2n_server_key_send` when the configured group is present
and ephemeral generation succeeds: the body is written (parameter region,
algorithm identifiers for TLS 1.2, length-prefixed signature region), the
transcript is hashed, and the outcome is decided by the signing
collaborator. -/
theorem s2n_server_key_send_eval
    (sign : RsaKey → List Nat → Option (List Nat)) (signSize : RsaKey → Nat)
    (genEphemeral : DhParams → Option DhParams) (conn : Connection)
    (cfg eph : DhParams)
    (hwc : conn.io.write_cursor = conn.io.blob.length)
    (hcfg : conn.config_dhparams = some cfg)
    (hgen : genEphemeral cfg = some eph) :
    s2n_server_key_send sign signSize genEphemeral conn =
      (let size := signSize conn.config_private_key
      let baseblob := conn.io.blob ++ (wire3 eph.p eph.g eph.Ys
        ++ (algsuffix conn.actual_protocol_version ++ u16be size))
      let conn2 := { conn with
        pending := { conn.pending with server_dh_params := some eph } }
      match sign conn.config_private_key (transcriptOf conn eph.p eph.g eph.Ys)
          with
      | none =>
        ⟨-1, some .signError,
          { conn2 with io := ⟨baseblob ++ List.replicate size 0,
              conn.io.read_cursor,
              (baseblob ++ List.replicate size 0).length⟩ },
          sendEventsOf conn eph ++ [.rsa_sign]⟩
      | some sigBytes =>
        ⟨0, none,
          { conn2 with
              io := ⟨baseblob ++ (sigBytes ++ List.replicate size 0).take size,
                conn.io.read_cursor,
                (baseblob ++ (sigBytes ++ List.replicate size 0).take size).length⟩
              next_state := .SERVER_HELLO_DONE },
          sendEventsOf conn eph ++ [.rsa_sign]⟩) := by
  unfold s2n_server_key_send
  rw [hcfg]
  dsimp only
  rw [hgen]
  dsimp only
  unfold s2n_stuffer_write_uint8 s2n_stuffer_write_uint16
  rw [s2n_stuffer_write_bytes_eval conn.io (wire3 eph.p eph.g eph.Ys) hwc]
  by_cases hv : conn.actual_protocol_version = S2N_TLS12
  · rw [if_pos hv]
    simp only [s2n_stuffer_write_bytes_lit]
    rcases hsig : sign conn.config_private_key
        (conn.pending.client_random ++ conn.pending.server_random
          ++ wire3 eph.p eph.g eph.Ys) with _ | sigBytes
    all_goals have hsig2 := hsig
    all_goals rw [List.append_assoc] at hsig2
    all_goals dsimp only
    all_goals simp [sendEventsOf, transcriptOf, hsig2, algsuffix, hv,
      List.append_assoc]
  · rw [if_neg hv]
    simp only [s2n_stuffer_write_bytes_lit]
    rcases hsig : sign conn.config_private_key
        (conn.pending.client_random ++ conn.pending.server_random
          ++ wire3 eph.p eph.g eph.Ys) with _ | sigBytes
    all_goals have hsig2 := hsig
    all_goals rw [List.append_assoc] at hsig2
    all_goals dsimp only
    all_goals simp [sendEventsOf, transcriptOf, hsig2, algsuffix, hv,
      List.append_assoc]

/-! ### Concrete data used to exercise the theorems -/

/-- A small pending workspace (the model does not force the randoms to be
32 bytes, so short randoms keep evaluation cheap). -/
def demoPending : Pending :=
  { signature_digest_alg := 2
    client_random := [17]
    server_random := [34]
    server_rsa_public_key := ⟨5, 4⟩
    rsa_key_freed := false
    server_dh_params := none }

/-- A TLS 1.2 connection whose inbound stuffer holds the given bytes. -/
def demoConn (bytes : List Nat) : Connection :=
  { actual_protocol_version := S2N_TLS12
    pending := demoPending
    io := ⟨bytes, 0, bytes.length⟩
    next_state := .SERVER_KEY
    config_dhparams := some ⟨[0, 255], [2], [3]⟩
    config_private_key := ⟨5, 4⟩ }

/-- A verification collaborator accepting exactly the signature 9 9 9 9. -/
def demoVerify : RsaKey → List Nat → List Nat → Bool :=
  fun _ _ s => s == [9, 9, 9, 9]

/-- A well-formed TLS 1.2 body with p = 00 FF, g = 02, Ys = 12 34 and the
four-byte signature 9 9 9 9. -/
def demoBody : List Nat :=
  wire3 [0, 255] [2] [18, 52] ++ [2, 1] ++ u16be 4 ++ [9, 9, 9, 9]

/-- The same body with a zero-length p: structurally parseable, accepted by
`demoVerify`, but rejected by the DH transcoder. -/
def demoBadBody : List Nat :=
  wire3 [] [2] [18, 52] ++ [2, 1] ++ u16be 4 ++ [9, 9, 9, 9]

/-- A signing collaborator that always produces the signature 9 9 9 9. -/
def demoSign : RsaKey → List Nat → Option (List Nat) :=
  fun _ _ => some [9, 9, 9, 9]

/-- The signature size of a key in the demo collaborators. -/
def demoSignSize : RsaKey → Nat := fun k => k.keySize

/-- An ephemeral-key generator that keeps the group and sets Ys = 12 34. -/
def demoGen : DhParams → Option DhParams :=
  fun d => some { d with Ys := [18, 52] }

/-! ### The claims -/

/-- C5: in both the decoder and the encoder, either the run fails before the
transcript is built (no hash event at all), or the transcript consists of
exactly one initialization with the connection's digest algorithm followed by
exactly three updates in order: client random, server random, then the
anchored parameter-region bytes — on the decode side the literal received
bytes at the entry read cursor, on the encode side the literal bytes written
at the entry write cursor.  This holds for every protocol version. -/
theorem C5_transcript_exact :
    (∀ (verify : RsaKey → List Nat → List Nat → Bool) (conn : Connection),
      ((s2n_server_key_recv verify conn).events.filter Event.isHash = [] ∧
        (s2n_server_key_recv verify conn).ret = -1) ∨
      (∃ sz, (s2n_server_key_recv verify conn).events.filter Event.isHash =
        [.hash_init conn.pending.signature_digest_alg,
         .hash_update conn.pending.client_random,
         .hash_update conn.pending.server_random,
         .hash_update ((conn.io.blob.drop conn.io.read_cursor).take sz)])) ∧
    (∀ (sign : RsaKey → List Nat → Option (List Nat))
      (signSize : RsaKey → Nat) (genEphemeral : DhParams → Option DhParams)
      (conn : Connection),
      conn.io.write_cursor = conn.io.blob.length →
      ((s2n_server_key_send sign signSize genEphemeral conn).events.filter
          Event.isHash = [] ∧
        (s2n_server_key_send sign signSize genEphemeral conn).ret = -1) ∨
      (∃ region,
        (s2n_server_key_send sign signSize genEphemeral conn).events.filter
            Event.isHash =
          [.hash_init conn.pending.signature_digest_alg,
           .hash_update conn.pending.client_random,
           .hash_update conn.pending.server_random,
           .hash_update region] ∧
        region = (((s2n_server_key_send sign signSize genEphemeral
            conn).conn.io.blob.drop conn.io.write_cursor).take
              region.length))) := by
  constructor
  · intro verify conn
    unfold s2n_server_key_recv
    repeat' split
    all_goals try simp [Event.isHash]
    all_goals (repeat' split)
    all_goals try simp [Event.isHash]
    all_goals exact ⟨_, rfl⟩
  · intro sign signSize genEphemeral conn hwc
    rcases hcfg : conn.config_dhparams with _ | cfg
    · refine Or.inl ?_
      unfold s2n_server_key_send
      rw [hcfg]
      simp [Event.isHash]
    rcases hgen : genEphemeral cfg with _ | eph
    · refine Or.inl ?_
      unfold s2n_server_key_send
      rw [hcfg]
      dsimp only
      rw [hgen]
      simp [Event.isHash]
    rw [s2n_server_key_send_eval sign signSize genEphemeral conn cfg eph hwc
      hcfg hgen]
    dsimp only
    rcases hsig : sign conn.config_private_key
        (transcriptOf conn eph.p eph.g eph.Ys) with _ | sigBytes
    all_goals refine Or.inr ⟨wire3 eph.p eph.g eph.Ys, ?_, ?_⟩
    all_goals try (simp [sendEventsOf, Event.isHash])
    all_goals simp [hwc, List.append_assoc, List.drop_left, List.take_left]

/-- C5 witness: the hash-event characterization instantiated at a concrete
successful decode and at a concrete encode (discharging the write-cursor
hypothesis). -/
theorem C5_witness :
    (((s2n_server_key_recv demoVerify (demoConn demoBody)).events.filter
        Event.isHash = [] ∧
      (s2n_server_key_recv demoVerify (demoConn demoBody)).ret = -1) ∨
    (∃ sz, (s2n_server_key_recv demoVerify
        (demoConn demoBody)).events.filter Event.isHash =
      [.hash_init (demoConn demoBody).pending.signature_digest_alg,
       .hash_update (demoConn demoBody).pending.client_random,
       .hash_update (demoConn demoBody).pending.server_random,
       .hash_update (((demoConn demoBody).io.blob.drop
         (demoConn demoBody).io.read_cursor).take sz)])) ∧
    (((s2n_server_key_send demoSign demoSignSize demoGen
        (demoConn [])).events.filter Event.isHash = [] ∧
      (s2n_server_key_send demoSign demoSignSize demoGen
        (demoConn [])).ret = -1) ∨
    (∃ region,
      (s2n_server_key_send demoSign demoSignSize demoGen
          (demoConn [])).events.filter Event.isHash =
        [.hash_init (demoConn []).pending.signature_digest_alg,
         .hash_update (demoConn []).pending.client_random,
         .hash_update (demoConn []).pending.server_random,
         .hash_update region] ∧
      region = (((s2n_server_key_send demoSign demoSignSize demoGen
          (demoConn [])).conn.io.blob.drop
            (demoConn []).io.write_cursor).take region.length))) :=
  ⟨C5_transcript_exact.1 demoVerify (demoConn demoBody),
   C5_transcript_exact.2 demoSign demoSignSize demoGen (demoConn [])
     (by decide)⟩

/-- C6: every execution of the decoder or the encoder that returns -1 leaves
the connection's next-state field at its entry value; next-state is assigned
SERVER_HELLO_DONE exactly when the call returns 0, on both paths. -/
theorem C6_next_state_only_on_success
    (verify : RsaKey → List Nat → List Nat → Bool)
    (sign : RsaKey → List Nat → Option (List Nat)) (signSize : RsaKey → Nat)
    (genEphemeral : DhParams → Option DhParams) (conn : Connection) :
    ((s2n_server_key_recv verify conn).ret = -1 →
      (s2n_server_key_recv verify conn).conn.next_state = conn.next_state) ∧
    ((s2n_server_key_recv verify conn).ret = 0 →
      (s2n_server_key_recv verify conn).conn.next_state
        = HandshakeState.SERVER_HELLO_DONE) ∧
    ((s2n_server_key_send sign signSize genEphemeral conn).ret = -1 →
      (s2n_server_key_send sign signSize genEphemeral conn).conn.next_state
        = conn.next_state) ∧
    ((s2n_server_key_send sign signSize genEphemeral conn).ret = 0 →
      (s2n_server_key_send sign signSize genEphemeral conn).conn.next_state
        = HandshakeState.SERVER_HELLO_DONE) := by
  refine ⟨?_, ?_, ?_, ?_⟩ <;>
  · try unfold s2n_server_key_recv
    try unfold s2n_server_key_send
    repeat' split
    all_goals try simp
    all_goals (repeat' split)
    all_goals simp

/-- C6 witness: a concrete failing decode keeps the entry next-state, and a
concrete successful decode sets SERVER_HELLO_DONE. -/
theorem C6_witness :
    (s2n_server_key_recv demoVerify (demoConn [])).ret = -1 ∧
    (s2n_server_key_recv demoVerify (demoConn [])).conn.next_state
      = (demoConn []).next_state ∧
    (s2n_server_key_recv demoVerify (demoConn demoBody)).ret = 0 ∧
    (s2n_server_key_recv demoVerify (demoConn demoBody)).conn.next_state
      = HandshakeState.SERVER_HELLO_DONE :=
  ⟨by decide,
   (C6_next_state_only_on_success demoVerify (fun _ _ => none) (fun _ => 0)
     (fun _ => none) (demoConn [])).1 (by decide),
   by decide,
   (C6_next_state_only_on_success demoVerify (fun _ _ => none) (fun _ => 0)
     (fun _ => none) (demoConn demoBody)).2.1 (by decide)⟩

/-- C9 counterexample: a decode that fails in DH transcoding (zero-length p,
signature accepted) returns -1 yet has changed the pending workspace: the
public-key resource was released before the failure. -/
theorem C9_counterexample :
    (s2n_server_key_recv demoVerify (demoConn demoBadBody)).ret = -1 ∧
    (s2n_server_key_recv demoVerify (demoConn demoBadBody)).conn.pending
      ≠ (demoConn demoBadBody).pending := by decide

/-- C9 (amended): a failing decode leaves every connection field unchanged
apart from the inbound read cursor — except that on the DH-transcoding
failure path (after successful verification) the public-key resource has
additionally been released. -/
theorem C9_failure_frame
    (verify : RsaKey → List Nat → List Nat → Bool) (conn : Connection)
    (h : (s2n_server_key_recv verify conn).ret = -1) :
    (s2n_server_key_recv verify conn).conn.io.blob = conn.io.blob ∧
    (s2n_server_key_recv verify conn).conn.io.write_cursor
      = conn.io.write_cursor ∧
    (s2n_server_key_recv verify conn).conn.actual_protocol_version
      = conn.actual_protocol_version ∧
    (s2n_server_key_recv verify conn).conn.config_dhparams
      = conn.config_dhparams ∧
    (s2n_server_key_recv verify conn).conn.config_private_key
      = conn.config_private_key ∧
    (s2n_server_key_recv verify conn).conn.next_state = conn.next_state ∧
    (s2n_server_key_recv verify conn).conn.pending.signature_digest_alg
      = conn.pending.signature_digest_alg ∧
    (s2n_server_key_recv verify conn).conn.pending.client_random
      = conn.pending.client_random ∧
    (s2n_server_key_recv verify conn).conn.pending.server_random
      = conn.pending.server_random ∧
    (s2n_server_key_recv verify conn).conn.pending.server_rsa_public_key
      = conn.pending.server_rsa_public_key ∧
    (s2n_server_key_recv verify conn).conn.pending.server_dh_params
      = conn.pending.server_dh_params ∧
    ((s2n_server_key_recv verify conn).conn.pending.rsa_key_freed
        = conn.pending.rsa_key_freed ∨
      (s2n_server_key_recv verify conn).err = some .dhError) := by
  obtain ⟨fb, h1, h2, h3, h4, h5, h6, h7⟩ := s2n_server_key_recv_frame verify conn
  obtain ⟨e1, e2, e3⟩ := s2n_server_key_recv_err_frame verify conn h
  exact ⟨fb.1, fb.2, h1, h2, h3, e1, h4, h5, h6, h7, e2, e3⟩

/-- C9 witness: the amended frame result at the concrete failing decode. -/
theorem C9_witness :
    (s2n_server_key_recv demoVerify (demoConn demoBadBody)).ret = -1 ∧
    (s2n_server_key_recv demoVerify (demoConn demoBadBody)).conn.io.blob
      = (demoConn demoBadBody).io.blob ∧
    ((s2n_server_key_recv demoVerify
        (demoConn demoBadBody)).conn.pending.rsa_key_freed
      = (demoConn demoBadBody).pending.rsa_key_freed ∨
     (s2n_server_key_recv demoVerify (demoConn demoBadBody)).err
      = some .dhError) :=
  ⟨by decide,
   (C9_failure_frame demoVerify (demoConn demoBadBody) (by decide)).1,
   (C9_failure_frame demoVerify (demoConn demoBadBody) (by decide)).2.2.2.2.2.2.2.2.2.2.2⟩

/-- C8 counterexample: the decoder does release the public key on a failure
path — when verification succeeds but DH transcoding then fails, the call
returns -1 with the release event performed. -/
theorem C8_counterexample :
    (s2n_server_key_recv demoVerify (demoConn demoBadBody)).ret = -1 ∧
    List.count Event.rsa_public_key_free
      (s2n_server_key_recv demoVerify (demoConn demoBadBody)).events = 1 := by
  decide

/-- C8 (amended): the decoder never releases the public key twice; paths
failing at or before signature verification (decode, policy or
invalid-signature errors) do not release it; and whenever it is released the
release immediately follows the successful verification call. -/
theorem C8_free_exactly_once
    (verify : RsaKey → List Nat → List Nat → Bool) (conn : Connection) :
    List.count Event.rsa_public_key_free
      (s2n_server_key_recv verify conn).events ≤ 1 ∧
    ((s2n_server_key_recv verify conn).err = some .decodeError ∨
     (s2n_server_key_recv verify conn).err
        = some .unsupportedSignatureAlgorithm ∨
     (s2n_server_key_recv verify conn).err = some .unsupportedHashAlgorithm ∨
     (s2n_server_key_recv verify conn).err = some .invalidSignature →
      List.count Event.rsa_public_key_free
        (s2n_server_key_recv verify conn).events = 0) ∧
    (List.count Event.rsa_public_key_free
        (s2n_server_key_recv verify conn).events = 1 →
      ∃ pre s post, (s2n_server_key_recv verify conn).events
        = pre ++ Event.rsa_verify s :: Event.rsa_public_key_free :: post) := by
  unfold s2n_server_key_recv
  repeat' split
  all_goals try simp
  all_goals (repeat' split)
  all_goals simp
  all_goals exact ⟨[_, _, _, _], _, [_], rfl⟩

/-- C8 witness: the amended statement at the concrete failing decode, where
the single release immediately follows the verification event. -/
theorem C8_witness :
    List.count Event.rsa_public_key_free
      (s2n_server_key_recv demoVerify (demoConn demoBadBody)).events ≤ 1 ∧
    (∃ pre s post, (s2n_server_key_recv demoVerify
        (demoConn demoBadBody)).events
      = pre ++ Event.rsa_verify s :: Event.rsa_public_key_free :: post) :=
  ⟨(C8_free_exactly_once demoVerify (demoConn demoBadBody)).1,
   (C8_free_exactly_once demoVerify (demoConn demoBadBody)).2.2 (by decide)⟩

/-- C3: on a TLS 1.2 connection, an input whose signature-algorithm byte is
not the RSA code (1) or whose hash-algorithm byte is not the SHA-1 code (2)
makes the decoder fail with a policy error, performing no collaborator event
at all (no hash-transcript construction and no signature verification) —
whatever bytes (including a valid signature) follow. -/
theorem C3_unsupported_alg_policy_error
    (verify : RsaKey → List Nat → List Nat → Bool) (conn : Connection)
    (p g Ys rest : List Nat) (ha sa : Nat)
    (hp : p.length < 65536) (hg : g.length < 65536) (hy : Ys.length < 65536)
    (hv : conn.actual_protocol_version = S2N_TLS12)
    (hio : conn.io = ⟨wire3 p g Ys ++ ha :: sa :: rest, 0,
       (wire3 p g Ys ++ ha :: sa :: rest).length⟩)
    (hbad : sa ≠ 1 ∨ ha ≠ 2) :
    (s2n_server_key_recv verify conn).ret = -1 ∧
    (∃ e, (s2n_server_key_recv verify conn).err = some e
      ∧ e.isPolicy = true) ∧
    (s2n_server_key_recv verify conn).events = [] := by
  rw [s2n_server_key_recv_eval_badalg verify conn p g Ys rest ha sa
    hp hg hy hv hio hbad]
  refine ⟨rfl, ⟨_, rfl, ?_⟩, rfl⟩
  by_cases hsa : sa = 1 <;> simp [hsa, KexError.isPolicy]

/-- C3 witness: a concrete TLS 1.2 input carrying algorithm identifiers
(2, 3) and a signature the demo verifier would accept still fails with a
policy error and an empty event trace. -/
theorem C3_witness :
    (s2n_server_key_recv demoVerify (demoConn (wire3 [0, 255] [2] [18, 52]
      ++ 2 :: 3 :: (u16be 4 ++ [9, 9, 9, 9])))).ret = -1 ∧
    (∃ e, (s2n_server_key_recv demoVerify (demoConn (wire3 [0, 255] [2]
      [18, 52] ++ 2 :: 3 :: (u16be 4 ++ [9, 9, 9, 9])))).err = some e
      ∧ e.isPolicy = true) ∧
    (s2n_server_key_recv demoVerify (demoConn (wire3 [0, 255] [2] [18, 52]
      ++ 2 :: 3 :: (u16be 4 ++ [9, 9, 9, 9])))).events = [] :=
  C3_unsupported_alg_policy_error demoVerify _ [0, 255] [2] [18, 52]
    (u16be 4 ++ [9, 9, 9, 9]) 2 3 (by decide) (by decide) (by decide) rfl rfl
    (Or.inl (by decide))

/-- C10: on a TLS 1.2 input both algorithm-identifier bytes are read (the
final read cursor sits two bytes past the parameter region) before either is
validated, and the signature identifier is compared first: when both bytes
are unsupported the reported error is the unsupported-signature-algorithm
one, not the unsupported-hash-algorithm one. -/
theorem C10_signature_alg_checked_first
    (verify : RsaKey → List Nat → List Nat → Bool) (conn : Connection)
    (p g Ys rest : List Nat) (ha sa : Nat)
    (hp : p.length < 65536) (hg : g.length < 65536) (hy : Ys.length < 65536)
    (hv : conn.actual_protocol_version = S2N_TLS12)
    (hio : conn.io = ⟨wire3 p g Ys ++ ha :: sa :: rest, 0,
       (wire3 p g Ys ++ ha :: sa :: rest).length⟩)
    (hsa : sa ≠ 1) (_hha : ha ≠ 2) :
    (s2n_server_key_recv verify conn).ret = -1 ∧
    (s2n_server_key_recv verify conn).err
      = some .unsupportedSignatureAlgorithm ∧
    (s2n_server_key_recv verify conn).conn.io.read_cursor
      = 2 + p.length + 2 + g.length + 2 + Ys.length + 2 := by
  rw [s2n_server_key_recv_eval_badalg verify conn p g Ys rest ha sa
    hp hg hy hv hio (Or.inl hsa)]
  exact ⟨rfl, by simp [hsa], rfl⟩

/-- C10 witness: with both identifier bytes bad (7, 9), the error is the
signature-algorithm one and the cursor sits two bytes past the parameters. -/
theorem C10_witness :
    (s2n_server_key_recv demoVerify (demoConn (wire3 [0, 255] [2] [18, 52]
      ++ 7 :: 9 :: (u16be 4 ++ [9, 9, 9, 9])))).ret = -1 ∧
    (s2n_server_key_recv demoVerify (demoConn (wire3 [0, 255] [2] [18, 52]
      ++ 7 :: 9 :: (u16be 4 ++ [9, 9, 9, 9])))).err
      = some .unsupportedSignatureAlgorithm ∧
    (s2n_server_key_recv demoVerify (demoConn (wire3 [0, 255] [2] [18, 52]
      ++ 7 :: 9 :: (u16be 4 ++ [9, 9, 9, 9])))).conn.io.read_cursor
      = 2 + (2 : Nat) + 2 + 1 + 2 + 2 + 2 :=
  C10_signature_alg_checked_first demoVerify _ [0, 255] [2] [18, 52]
    (u16be 4 ++ [9, 9, 9, 9]) 7 9 (by decide) (by decide) (by decide) rfl rfl
    (by decide) (by decide)

/-- C7: whenever the verification collaborator rejects the signature, the
decoder stops with the distinct invalid-signature error: the public key is
not released, the DH transcoder is not invoked, and the next-state and the
whole pending workspace are unchanged. -/
theorem C7_invalid_signature_terminal
    (verify : RsaKey → List Nat → List Nat → Bool) (conn : Connection)
    (p g Ys sig tail : List Nat)
    (hp : p.length < 65536) (hg : g.length < 65536) (hy : Ys.length < 65536)
    (hs : sig.length < 65536)
    (hio : conn.io =
      ⟨wireBody conn.actual_protocol_version p g Ys sig ++ tail, 0,
       (wireBody conn.actual_protocol_version p g Ys sig ++ tail).length⟩)
    (hverify : verify conn.pending.server_rsa_public_key
      (transcriptOf conn p g Ys) sig = false) :
    (s2n_server_key_recv verify conn).ret = -1 ∧
    (s2n_server_key_recv verify conn).err = some .invalidSignature ∧
    Event.rsa_public_key_free ∉ (s2n_server_key_recv verify conn).events ∧
    (∀ a b c, Event.dh_transcode a b c
      ∉ (s2n_server_key_recv verify conn).events) ∧
    (s2n_server_key_recv verify conn).conn.next_state = conn.next_state ∧
    (s2n_server_key_recv verify conn).conn.pending = conn.pending := by
  rw [s2n_server_key_recv_eval verify conn p g Ys sig tail hp hg hy hs hio]
  dsimp only
  rw [if_pos hverify]
  refine ⟨rfl, rfl, ?_, ?_, rfl, rfl⟩
  · simp [hashEventsOf]
  · intro a b c
    simp [hashEventsOf]

/-- C7 witness: a verifier rejecting everything on the otherwise valid body
yields the invalid-signature error with no release or transcode event. -/
theorem C7_witness :
    (s2n_server_key_recv (fun _ _ _ => false) (demoConn demoBody)).ret
      = -1 ∧
    (s2n_server_key_recv (fun _ _ _ => false) (demoConn demoBody)).err
      = some .invalidSignature ∧
    Event.rsa_public_key_free
      ∉ (s2n_server_key_recv (fun _ _ _ => false)
          (demoConn demoBody)).events ∧
    (s2n_server_key_recv (fun _ _ _ => false)
      (demoConn demoBody)).conn.pending = (demoConn demoBody).pending :=
  (fun h => ⟨h.1, h.2.1, h.2.2.1, h.2.2.2.2.2⟩)
    (C7_invalid_signature_terminal (fun _ _ _ => false) (demoConn demoBody)
      [0, 255] [2] [18, 52] [9, 9, 9, 9] [] (by decide) (by decide)
      (by decide) (by decide) (by decide) rfl)

/-- C2: on a message whose body parses (any verification outcome), the
region hashed as the third transcript input is exactly the slice of the
input buffer starting at the entry read cursor whose length is
2+len(p)+2+len(g)+2+len(Ys); it equals the serialized parameter region and
so contains none of the algorithm-identifier or signature bytes that follow
it on the wire. -/
theorem C2_anchored_region_exact
    (verify : RsaKey → List Nat → List Nat → Bool) (conn : Connection)
    (p g Ys sig tail : List Nat)
    (hp : p.length < 65536) (hg : g.length < 65536) (hy : Ys.length < 65536)
    (hs : sig.length < 65536)
    (hio : conn.io =
      ⟨wireBody conn.actual_protocol_version p g Ys sig ++ tail, 0,
       (wireBody conn.actual_protocol_version p g Ys sig ++ tail).length⟩) :
    ∃ region,
      (s2n_server_key_recv verify conn).events.filter Event.isHash
        = [.hash_init conn.pending.signature_digest_alg,
           .hash_update conn.pending.client_random,
           .hash_update conn.pending.server_random,
           .hash_update region] ∧
      region = (conn.io.blob.drop conn.io.read_cursor).take
        (2 + p.length + 2 + g.length + 2 + Ys.length) ∧
      region = wire3 p g Ys ∧
      region.length = 2 + p.length + 2 + g.length + 2 + Ys.length := by
  rw [s2n_server_key_recv_eval verify conn p g Ys sig tail hp hg hy hs hio]
  dsimp only
  refine ⟨wire3 p g Ys, ?_, ?_, rfl, wire3_length p g Ys⟩
  · split
    · simp [hashEventsOf, Event.isHash]
    · split <;> simp [hashEventsOf, Event.isHash]
  · rw [hio]
    dsimp only
    rw [List.drop_zero, wireBody, List.append_assoc, List.append_assoc,
      List.append_assoc, take_wire3]

/-- C2 witness: on the concrete valid body the hashed region is the eleven
parameter bytes, independent of the algorithm-identifier and signature
bytes. -/
theorem C2_witness :
    ∃ region,
      (s2n_server_key_recv demoVerify (demoConn demoBody)).events.filter
          Event.isHash
        = [.hash_init (demoConn demoBody).pending.signature_digest_alg,
           .hash_update (demoConn demoBody).pending.client_random,
           .hash_update (demoConn demoBody).pending.server_random,
           .hash_update region] ∧
      region = ((demoConn demoBody).io.blob.drop
        (demoConn demoBody).io.read_cursor).take
          (2 + ([0, 255] : List Nat).length + 2 + ([2] : List Nat).length
            + 2 + ([18, 52] : List Nat).length) ∧
      region = wire3 [0, 255] [2] [18, 52] ∧
      region.length = 2 + ([0, 255] : List Nat).length + 2
        + ([2] : List Nat).length + 2 + ([18, 52] : List Nat).length :=
  C2_anchored_region_exact demoVerify (demoConn demoBody) [0, 255] [2]
    [18, 52] [9, 9, 9, 9] [] (by decide) (by decide) (by decide) (by decide)
    rfl

/-- C1: round trip.  Encoding a ServerKeyExchange from a configured group
(with any successfully generated ephemeral triple (p, g, Ys) whose components
are nonempty and 16-bit-length encodable) and then decoding the produced
bytes on a connection with the same protocol version, the same randoms and
the matching key pair (a verifier that accepts exactly the signer's output)
succeeds on both sides: both calls return 0, both set next-state to
SERVER_HELLO_DONE, and the decoder's pending workspace holds DH parameters
equal to the encoded ones. -/
theorem C1_roundtrip
    (verify : RsaKey → List Nat → List Nat → Bool)
    (sign : RsaKey → List Nat → Option (List Nat)) (signSize : RsaKey → Nat)
    (genEphemeral : DhParams → Option DhParams)
    (connS connR : Connection) (cfg eph : DhParams) (sigBytes : List Nat)
    (hioS : connS.io = ⟨[], 0, 0⟩)
    (hcfg : connS.config_dhparams = some cfg)
    (hgen : genEphemeral cfg = some eph)
    (hp1 : eph.p ≠ []) (hg1 : eph.g ≠ []) (hy1 : eph.Ys ≠ [])
    (hp2 : eph.p.length < 65536) (hg2 : eph.g.length < 65536)
    (hy2 : eph.Ys.length < 65536)
    (hsign : sign connS.config_private_key
      (transcriptOf connS eph.p eph.g eph.Ys) = some sigBytes)
    (hlen : sigBytes.length = signSize connS.config_private_key)
    (hsz : sigBytes.length < 65536)
    (hver : connR.actual_protocol_version = connS.actual_protocol_version)
    (hcr : connR.pending.client_random = connS.pending.client_random)
    (hsr : connR.pending.server_random = connS.pending.server_random)
    (hmatch : ∀ t s, verify connR.pending.server_rsa_public_key t s = true
      ↔ sign connS.config_private_key t = some s)
    (hioR : connR.io = ⟨(s2n_server_key_send sign signSize genEphemeral
        connS).conn.io.blob, 0,
      (s2n_server_key_send sign signSize genEphemeral
        connS).conn.io.blob.length⟩) :
    (s2n_server_key_send sign signSize genEphemeral connS).ret = 0 ∧
    (s2n_server_key_send sign signSize genEphemeral connS).conn.next_state
      = HandshakeState.SERVER_HELLO_DONE ∧
    (s2n_server_key_send sign signSize genEphemeral
      connS).conn.pending.server_dh_params = some eph ∧
    (s2n_server_key_recv verify connR).ret = 0 ∧
    (s2n_server_key_recv verify connR).conn.next_state
      = HandshakeState.SERVER_HELLO_DONE ∧
    (s2n_server_key_recv verify connR).conn.pending.server_dh_params
      = some eph := by
  have hwc : connS.io.write_cursor = connS.io.blob.length := by simp [hioS]
  have hsend := s2n_server_key_send_eval sign signSize genEphemeral connS
    cfg eph hwc hcfg hgen
  have hB : (s2n_server_key_send sign signSize genEphemeral
      connS).conn.io.blob
      = wireBody connR.actual_protocol_version eph.p eph.g eph.Ys sigBytes
        ++ [] := by
    rw [hsend]
    dsimp only
    rw [hsign]
    dsimp only
    rw [hioS]
    simp [wireBody, hver, List.append_assoc, ← hlen, List.take_left]
  have hioR2 : connR.io
      = ⟨wireBody connR.actual_protocol_version eph.p eph.g eph.Ys sigBytes
          ++ [], 0,
         (wireBody connR.actual_protocol_version eph.p eph.g eph.Ys sigBytes
          ++ []).length⟩ := by
    rw [hioR, hB]
  have hvt : verify connR.pending.server_rsa_public_key
      (transcriptOf connR eph.p eph.g eph.Ys) sigBytes = true := by
    rw [hmatch]
    rw [show transcriptOf connR eph.p eph.g eph.Ys
        = transcriptOf connS eph.p eph.g eph.Ys by
      simp [transcriptOf, hcr, hsr]]
    exact hsign
  have htrans : s2n_dh_p_g_Ys_to_dh_params eph.p eph.g eph.Ys = some eph := by
    unfold s2n_dh_p_g_Ys_to_dh_params
    rw [if_neg (by simp [hp1, hg1, hy1])]
  rw [hsend, s2n_server_key_recv_eval verify connR eph.p eph.g eph.Ys
    sigBytes [] hp2 hg2 hy2 hsz hioR2]
  dsimp only
  rw [hsign]
  dsimp only
  rw [if_neg (by rw [hvt]; simp), htrans]
  exact ⟨rfl, rfl, rfl, rfl, rfl, rfl⟩

/-- C1 witness: the concrete round trip with the demo collaborators; the
encoder emits exactly the demo body and the decoder accepts it, both sides
ending in SERVER_HELLO_DONE with the pending DH triple (00FF, 02, 1234). -/
theorem C1_witness :
    (s2n_server_key_send demoSign demoSignSize demoGen (demoConn [])).ret
      = 0 ∧
    (s2n_server_key_send demoSign demoSignSize demoGen
      (demoConn [])).conn.next_state = HandshakeState.SERVER_HELLO_DONE ∧
    (s2n_server_key_send demoSign demoSignSize demoGen
      (demoConn [])).conn.pending.server_dh_params
      = some ⟨[0, 255], [2], [18, 52]⟩ ∧
    (s2n_server_key_recv demoVerify (demoConn demoBody)).ret = 0 ∧
    (s2n_server_key_recv demoVerify (demoConn demoBody)).conn.next_state
      = HandshakeState.SERVER_HELLO_DONE ∧
    (s2n_server_key_recv demoVerify
      (demoConn demoBody)).conn.pending.server_dh_params
      = some ⟨[0, 255], [2], [18, 52]⟩ :=
  C1_roundtrip demoVerify demoSign demoSignSize demoGen (demoConn [])
    (demoConn demoBody) ⟨[0, 255], [2], [3]⟩ ⟨[0, 255], [2], [18, 52]⟩
    [9, 9, 9, 9] rfl rfl rfl (by decide) (by decide) (by decide) (by decide)
    (by decide) (by decide) (by decide) (by decide) (by decide) rfl
    (by decide) (by decide)
    (by intro t s; simp only [demoVerify, demoSign, beq_iff_eq,
      Option.some.injEq]; exact eq_comm) (by decide)

/-- C4: for every well-formed encoded ServerKeyExchange body and every strict
prefix of it (cut at any byte boundary before the final byte), the decoder
fails with the decode error at the first read that exceeds the remaining
bytes; in the model no read can access bytes past the buffer end and a
failing read yields no value at all. -/
theorem C4_truncated_prefix_decode_error
    (verify : RsaKey → List Nat → List Nat → Bool) (conn : Connection)
    (p g Ys sig : List Nat) (cut : Nat)
    (hp : p.length < 65536) (hg : g.length < 65536) (hy : Ys.length < 65536)
    (hs : sig.length < 65536)
    (hcut : cut < (wireBody conn.actual_protocol_version p g Ys sig).length)
    (hio : conn.io =
      ⟨(wireBody conn.actual_protocol_version p g Ys sig).take cut, 0,
       ((wireBody conn.actual_protocol_version p g Ys sig).take cut).length⟩) :
    (s2n_server_key_recv verify conn).ret = -1 ∧
    (s2n_server_key_recv verify conn).err = some .decodeError := by
  obtain ⟨F, hF⟩ : ∃ F, F = wireBody conn.actual_protocol_version p g Ys sig
    := ⟨_, rfl⟩
  rw [← hF] at hcut hio
  have hflen : F.length = 2 + p.length + 2 + g.length + 2 + Ys.length
      + (algsuffix conn.actual_protocol_version).length + 2 + sig.length := by
    rw [hF]
    simp [wireBody, wire3, u16be]
    omega
  have hA : (algsuffix conn.actual_protocol_version).length = 2
      ∨ (algsuffix conn.actual_protocol_version).length = 0 := by
    unfold algsuffix
    split <;> simp
  have D0 : List.drop 0 F = u16be p.length ++ (p ++ (u16be g.length ++ (g ++
      (u16be Ys.length ++ (Ys ++ (algsuffix conn.actual_protocol_version ++
      (u16be sig.length ++ sig))))))) := by
    rw [hF]
    simp [wireBody, wire3, List.append_assoc]
  have D1 : List.drop 2 F = p ++ (u16be g.length ++ (g ++
      (u16be Ys.length ++ (Ys ++ (algsuffix conn.actual_protocol_version ++
      (u16be sig.length ++ sig)))))) :=
    drop_chain F _ _ 0 2 D0 (by simp [u16be])
  have D2 : List.drop (2 + p.length) F = u16be g.length ++ (g ++
      (u16be Ys.length ++ (Ys ++ (algsuffix conn.actual_protocol_version ++
      (u16be sig.length ++ sig))))) :=
    drop_chain F _ _ 2 (2 + p.length) D1 (by omega)
  have D3 : List.drop (2 + p.length + 2) F = g ++
      (u16be Ys.length ++ (Ys ++ (algsuffix conn.actual_protocol_version ++
      (u16be sig.length ++ sig)))) :=
    drop_chain F _ _ (2 + p.length) (2 + p.length + 2) D2 (by simp [u16be])
  have D4 : List.drop (2 + p.length + 2 + g.length) F =
      u16be Ys.length ++ (Ys ++ (algsuffix conn.actual_protocol_version ++
      (u16be sig.length ++ sig))) :=
    drop_chain F _ _ (2 + p.length + 2) (2 + p.length + 2 + g.length) D3
      (by omega)
  have D5 : List.drop (2 + p.length + 2 + g.length + 2) F =
      Ys ++ (algsuffix conn.actual_protocol_version ++
        (u16be sig.length ++ sig)) :=
    drop_chain F _ _ (2 + p.length + 2 + g.length)
      (2 + p.length + 2 + g.length + 2) D4 (by simp [u16be])
  have D6 : List.drop (2 + p.length + 2 + g.length + 2 + Ys.length) F =
      algsuffix conn.actual_protocol_version ++ (u16be sig.length ++ sig) :=
    drop_chain F _ _ (2 + p.length + 2 + g.length + 2)
      (2 + p.length + 2 + g.length + 2 + Ys.length) D5 (by omega)
  have D7 : List.drop (2 + p.length + 2 + g.length + 2 + Ys.length
      + (algsuffix conn.actual_protocol_version).length) F
      = u16be sig.length ++ sig :=
    drop_chain F _ _ _ _ D6 rfl
  unfold s2n_server_key_recv
  rw [hio]
  have e0 : s2n_stuffer_raw_read ⟨F.take cut, 0, (F.take cut).length⟩ 0
      = some ([], ⟨F.take cut, 0, (F.take cut).length⟩) :=
    s2n_stuffer_raw_read_zero _ 0 _
  rcases Nat.lt_or_ge cut 2 with hc | hc1
  · have f : s2n_stuffer_read_uint16
        ⟨F.take cut, 0, (F.take cut).length⟩ = none :=
      s2n_stuffer_read_uint16_none _ 0 _ (by rw [List.length_take]; omega)
    simp only [e0, f]
    exact ⟨by trivial, by trivial⟩
  have e1 : s2n_stuffer_read_uint16 ⟨F.take cut, 0, (F.take cut).length⟩
      = some (p.length, ⟨F.take cut, 2, (F.take cut).length⟩) := by
    have := s2n_stuffer_read_uint16_prefix F _ 0 cut p.length D0 (by omega)
      hp (by omega)
    simpa using this
  rcases Nat.lt_or_ge cut (2 + p.length) with hc | hc2
  · have f : s2n_stuffer_raw_read ⟨F.take cut, 2, (F.take cut).length⟩
        p.length = none :=
      s2n_stuffer_raw_read_none _ 2 _ p.length (by rw [List.length_take]; omega)
    simp only [e0, e1, f]
    exact ⟨by trivial, by trivial⟩
  have e2 : s2n_stuffer_raw_read ⟨F.take cut, 2, (F.take cut).length⟩
      p.length
      = some (p, ⟨F.take cut, 2 + p.length, (F.take cut).length⟩) :=
    s2n_stuffer_raw_read_prefix F p _ 2 cut D1 (by omega) (by omega)
  rcases Nat.lt_or_ge cut (2 + p.length + 2) with hc | hc3
  · have f : s2n_stuffer_read_uint16
        ⟨F.take cut, 2 + p.length, (F.take cut).length⟩ = none :=
      s2n_stuffer_read_uint16_none _ (2 + p.length) _
        (by rw [List.length_take]; omega)
    simp only [e0, e1, e2, f]
    exact ⟨by trivial, by trivial⟩
  have e3 : s2n_stuffer_read_uint16
      ⟨F.take cut, 2 + p.length, (F.take cut).length⟩
      = some (g.length, ⟨F.take cut, 2 + p.length + 2,
          (F.take cut).length⟩) :=
    s2n_stuffer_read_uint16_prefix F _ (2 + p.length) cut g.length D2
      (by omega) hg (by omega)
  rcases Nat.lt_or_ge cut (2 + p.length + 2 + g.length) with hc | hc4
  · have f : s2n_stuffer_raw_read
        ⟨F.take cut, 2 + p.length + 2, (F.take cut).length⟩ g.length
        = none :=
      s2n_stuffer_raw_read_none _ (2 + p.length + 2) _ g.length
        (by rw [List.length_take]; omega)
    simp only [e0, e1, e2, e3, f]
    exact ⟨by trivial, by trivial⟩
  have e4 : s2n_stuffer_raw_read
      ⟨F.take cut, 2 + p.length + 2, (F.take cut).length⟩ g.length
      = some (g, ⟨F.take cut, 2 + p.length + 2 + g.length,
          (F.take cut).length⟩) :=
    s2n_stuffer_raw_read_prefix F g _ (2 + p.length + 2) cut D3 (by omega)
      (by omega)
  rcases Nat.lt_or_ge cut (2 + p.length + 2 + g.length + 2) with hc | hc5
  · have f : s2n_stuffer_read_uint16
        ⟨F.take cut, 2 + p.length + 2 + g.length, (F.take cut).length⟩
        = none :=
      s2n_stuffer_read_uint16_none _ (2 + p.length + 2 + g.length) _
        (by rw [List.length_take]; omega)
    simp only [e0, e1, e2, e3, e4, f]
    exact ⟨by trivial, by trivial⟩
  have e5 : s2n_stuffer_read_uint16
      ⟨F.take cut, 2 + p.length + 2 + g.length, (F.take cut).length⟩
      = some (Ys.length, ⟨F.take cut, 2 + p.length + 2 + g.length + 2,
          (F.take cut).length⟩) :=
    s2n_stuffer_read_uint16_prefix F _ (2 + p.length + 2 + g.length) cut
      Ys.length D4 (by omega) hy (by omega)
  rcases Nat.lt_or_ge cut (2 + p.length + 2 + g.length + 2 + Ys.length)
    with hc | hc6
  · have f : s2n_stuffer_raw_read
        ⟨F.take cut, 2 + p.length + 2 + g.length + 2, (F.take cut).length⟩
        Ys.length = none :=
      s2n_stuffer_raw_read_none _ (2 + p.length + 2 + g.length + 2) _
        Ys.length (by rw [List.length_take]; omega)
    simp only [e0, e1, e2, e3, e4, e5, f]
    exact ⟨by trivial, by trivial⟩
  have e6 : s2n_stuffer_raw_read
      ⟨F.take cut, 2 + p.length + 2 + g.length + 2, (F.take cut).length⟩
      Ys.length
      = some (Ys, ⟨F.take cut, 2 + p.length + 2 + g.length + 2 + Ys.length,
          (F.take cut).length⟩) :=
    s2n_stuffer_raw_read_prefix F Ys _ (2 + p.length + 2 + g.length + 2) cut
      D5 (by omega) (by omega)
  rcases Nat.lt_or_ge cut (2 + p.length + 2 + g.length + 2 + Ys.length
      + (algsuffix conn.actual_protocol_version).length) with hc | hc7
  · have hA2 : (algsuffix conn.actual_protocol_version).length = 2 := by
      rcases hA with h | h
      · exact h
      · omega
    have hv12 : conn.actual_protocol_version = S2N_TLS12 := by
      by_contra hx
      simp [algsuffix, hx] at hA2
    have hD6' : List.drop (2 + p.length + 2 + g.length + 2 + Ys.length) F
        = 2 :: 1 :: (u16be sig.length ++ sig) := by
      simpa [algsuffix, hv12] using D6
    rcases Nat.lt_or_ge cut (2 + p.length + 2 + g.length + 2 + Ys.length + 1)
      with hc7a | hc7b
    · have fA : s2n_server_key_recv_algbranch S2N_TLS12
          ⟨F.take cut, 2 + p.length + 2 + g.length + 2 + Ys.length,
           (F.take cut).length⟩
          = .error (.decodeError,
            ⟨F.take cut, 2 + p.length + 2 + g.length + 2 + Ys.length,
             (F.take cut).length⟩) :=
        algbranch_trunc1 _ _ _ (by rw [List.length_take]; omega)
      simp only [e0, e1, e2, e3, e4, e5, e6, hv12, fA]
      exact ⟨by trivial, by trivial⟩
    · have fA : s2n_server_key_recv_algbranch S2N_TLS12
          ⟨F.take cut, 2 + p.length + 2 + g.length + 2 + Ys.length,
           (F.take cut).length⟩
          = .error (.decodeError,
            ⟨F.take cut, 2 + p.length + 2 + g.length + 2 + Ys.length + 1,
             (F.take cut).length⟩) := by
        have hdp := drop_take_of_drop F [2] (1 :: (u16be sig.length ++ sig))
          (2 + p.length + 2 + g.length + 2 + Ys.length) cut
          (by simpa using hD6') (by simp; omega)
        refine algbranch_trunc2 (F.take cut) _
          (2 + p.length + 2 + g.length + 2 + Ys.length) _ 2
          (by simpa using hdp) ?_ ?_
        · rw [List.length_take]
          omega
        · rw [List.length_take]
          omega
      simp only [e0, e1, e2, e3, e4, e5, e6, hv12, fA]
      exact ⟨by trivial, by trivial⟩
  have e7 : s2n_server_key_recv_algbranch conn.actual_protocol_version
      ⟨F.take cut, 2 + p.length + 2 + g.length + 2 + Ys.length,
       (F.take cut).length⟩
      = .ok ⟨F.take cut, 2 + p.length + 2 + g.length + 2 + Ys.length
          + (algsuffix conn.actual_protocol_version).length,
         (F.take cut).length⟩ :=
    algbranch_accepts_prefix conn.actual_protocol_version F _
      (2 + p.length + 2 + g.length + 2 + Ys.length) cut D6 (by omega)
      (by omega)
  rcases Nat.lt_or_ge cut (2 + p.length + 2 + g.length + 2 + Ys.length
      + (algsuffix conn.actual_protocol_version).length + 2) with hc | hc8
  · have f : s2n_stuffer_read_uint16
        ⟨F.take cut, 2 + p.length + 2 + g.length + 2 + Ys.length
          + (algsuffix conn.actual_protocol_version).length,
         (F.take cut).length⟩ = none :=
      s2n_stuffer_read_uint16_none _ _ _ (by rw [List.length_take]; omega)
    simp only [e0, e1, e2, e3, e4, e5, e6, e7, f]
    exact ⟨by trivial, by trivial⟩
  have e8 : s2n_stuffer_read_uint16
      ⟨F.take cut, 2 + p.length + 2 + g.length + 2 + Ys.length
        + (algsuffix conn.actual_protocol_version).length,
       (F.take cut).length⟩
      = some (sig.length, ⟨F.take cut, 2 + p.length + 2 + g.length + 2
          + Ys.length + (algsuffix conn.actual_protocol_version).length + 2,
         (F.take cut).length⟩) :=
    s2n_stuffer_read_uint16_prefix F _ _ cut sig.length D7 (by omega) hs
      (by omega)
  have f : s2n_stuffer_raw_read
      ⟨F.take cut, 2 + p.length + 2 + g.length + 2 + Ys.length
        + (algsuffix conn.actual_protocol_version).length + 2,
       (F.take cut).length⟩ sig.length = none :=
    s2n_stuffer_raw_read_none _ _ _ sig.length
      (by rw [List.length_take]; omega)
  simp only [e0, e1, e2, e3, e4, e5, e6, e7, e8, f]
  exact ⟨by trivial, by trivial⟩

/-- C4 witness: the concrete valid body truncated after five bytes fails
with a decode error. -/
theorem C4_witness :
    (s2n_server_key_recv demoVerify (demoConn (demoBody.take 5))).ret
      = -1 ∧
    (s2n_server_key_recv demoVerify (demoConn (demoBody.take 5))).err
      = some .decodeError :=
  C4_truncated_prefix_decode_error demoVerify (demoConn (demoBody.take 5))
    [0, 255] [2] [18, 52] [9, 9, 9, 9] 5 (by decide) (by decide) (by decide)
    (by decide) (by decide) (by decide)

end S2N
